import Mathlib

/-!
# birdnet-go: the realtime supervisor (`internal/analysis/realtime.go`)

The second part of the definitions, in namespace `Media`, embeds the clip-name
and header functions of `internal/httpcontroller/handlers/media.go`.

A shallow embedding of the control handler, the retention scheduler and the
supervisor's startup, main loop and shutdown.  Goroutines are modelled by
explicit state passing: a `World` holds the observable history (`events`),
the notification channel and the shared WaitGroup counter; collaborators that
live outside the file (`birdnet`, `myaudio`, `diskmanager`, `conf`, ...) appear
as the values they return, supplied by the caller of each definition.
-/

namespace Realtime

/-- A Go `error` value: `none` is `nil`, `some msg` carries the text of `err.Error()`. -/
abbrev GoError := Option String

/-- The struct `handlers.Notification` as the control handler fills it in. -/
structure Notification where
  Message : String
  Type_ : String
  deriving DecidableEq, Repr

/-- Observable actions of the goroutines of `realtime.go`. -/
inductive Event where
  | log (msg : String)
  | buildRangeFilter
  | reloadModel
  | updateMonitors (sources : List String)
  | reconfigureRTSPStreams
  | notify (n : Notification)
  | ageBasedCleanup
  | usageBasedCleanup
  | initializeBirdNET
  | hostInfo
  | datastoreNew
  | datastoreOpen
  | datastoreClose
  | initAnalysisBuffers (sources : List String)
  | initCaptureBuffers (sources : List String)
  | queueInit
  | newMetrics
  | initBirdImageCache
  | processorNew
  | httpServerStart
  | newBufferManager
  | spawnCaptureAudio
  | spawnClipCleanupMonitor
  | weatherNewService
  | spawnWeatherPolling
  | telemetryNewEndpoint
  | telemetryEndpointStart
  | spawnControlMonitor
  | spawnCtrlCMonitor
  | closeControlChan
  | removeAllMonitors
  | wgWait
  | birdnetDelete
  deriving DecidableEq, Repr

/-- State threaded through the model: the history of actions, the buffered
notification channel (oldest first) with its capacity, the number of receives
its consumer will still perform, and the counter of the shared WaitGroup. -/
structure World where
  events : List Event
  notificationChan : List Notification
  notificationCap : Nat
  notificationReads : Nat
  wg : Int
  deriving DecidableEq, Repr

/-- Append one action to the history. -/
def World.record (w : World) (e : Event) : World :=
  { w with events := w.events ++ [e] }

/-- Number of sends on the notification channel that can still complete:
free buffer slots plus the receives the consumer will perform. -/
def World.free (w : World) : Nat :=
  (w.notificationCap - w.notificationChan.length) + w.notificationReads

/-- Result of running a straight-line piece of a goroutine: it ran to the end,
or it is parked at a channel send that cannot complete. -/
inductive Step where
  | ok (w : World)
  | blocked (w : World)
  deriving DecidableEq, Repr

/-- Sequencing: a parked goroutine executes nothing further. -/
def Step.bind (s : Step) (f : World → Step) : Step :=
  match s with
  | .ok w => f w
  | .blocked w => .blocked w

/-- Whether a send on the notification channel can complete: the buffer has a
free slot, or the consumer is going to receive. -/
def World.canSend (w : World) : Bool :=
  w.notificationChan.length < w.notificationCap || 0 < w.notificationReads

/-- The world after a completed send of `n`: `n` is buffered in a free slot, or
the consumer receives the oldest element (for a channel without buffer that is
`n` itself) and `n` takes the freed place. -/
def World.deliver (w : World) (n : Notification) : World :=
  if w.notificationChan.length < w.notificationCap then
    { w with notificationChan := w.notificationChan ++ [n],
             events := w.events ++ [.notify n] }
  else
    { w with notificationChan := (w.notificationChan ++ [n]).tail,
             notificationReads := w.notificationReads - 1,
             events := w.events ++ [.notify n] }

/-- The statement `notificationChan <- n`: a plain channel send.  It completes
when `canSend` holds; otherwise the sending goroutine stays parked at it. -/
def send (w : World) (n : Notification) : Step :=
  if w.canSend then .ok (w.deliver n) else .blocked w

/-- What the collaborators return while one control command is handled:
the errors of `bn.ReloadModel()` and `birdnet.BuildRangeFilter(bn)`, and the
fields of `conf.Setting()` the handler reads. -/
structure Collab where
  reloadModel : GoError
  buildRangeFilter : GoError
  rtspURLs : List String
  audioSource : String
  deriving DecidableEq, Repr

/-- The `case "rebuild_range_filter"` arm of `startControlMonitor`. -/
def rebuildRangeFilterCase (c : Collab) (w : World) : Step :=
  let w := w.record .buildRangeFilter
  match c.buildRangeFilter with
  | some err =>
    send (w.record (.log ("\x1b[31m❌ Error handling range filter rebuild: " ++ err ++ "\x1b[0m")))
      { Message := "Failed to rebuild range filter: " ++ err, Type_ := "error" }
  | none =>
    send (w.record (.log "\x1b[32m🔄 Range filter rebuilt successfully\x1b[0m"))
      { Message := "Range filter rebuilt successfully", Type_ := "success" }

/-- The `case "reload_birdnet"` arm of `startControlMonitor`. -/
def reloadBirdnetCase (c : Collab) (w : World) : Step :=
  let w := w.record .reloadModel
  match c.reloadModel with
  | some err =>
    send (w.record (.log ("\x1b[31m❌ Error reloading BirdNET model: " ++ err ++ "\x1b[0m")))
      { Message := "Failed to reload BirdNET model: " ++ err, Type_ := "error" }
  | none =>
    (send (w.record (.log "\x1b[32m✅ BirdNET model reloaded successfully\x1b[0m"))
      { Message := "BirdNET model reloaded successfully", Type_ := "success" }).bind fun w =>
    let w := w.record .buildRangeFilter
    match c.buildRangeFilter with
    | some err =>
      send (w.record (.log ("\x1b[31m❌ Error rebuilding range filter after model reload: " ++ err ++ "\x1b[0m")))
        { Message := "Failed to rebuild range filter: " ++ err, Type_ := "error" }
    | none =>
      send (w.record (.log "\x1b[32m✅ Range filter rebuilt successfully\x1b[0m"))
        { Message := "Range filter rebuilt successfully", Type_ := "success" }

/-- The list `sources` built in the `case "reconfigure_rtsp_sources"` arm. -/
def reconfigureSources (rtspURLs : List String) (audioSource : String) : List String :=
  let sources : List String := []
  let sources := if rtspURLs.length > 0 then sources ++ rtspURLs else sources
  if audioSource ≠ "" then sources ++ ["malgo"] else sources

/-- The `case "reconfigure_rtsp_sources"` arm of `startControlMonitor`. -/
def reconfigureRTSPSourcesCase (c : Collab) (w : World) : Step :=
  let w := w.record (.log "\x1b[32m🔄 Reconfiguring RTSP sources...\x1b[0m")
  let sources := reconfigureSources c.rtspURLs c.audioSource
  let w := w.record (.updateMonitors sources)
  let w := w.record .reconfigureRTSPStreams
  let w := w.record (.log "\x1b[32m✅ RTSP sources reconfigured successfully\x1b[0m")
  send w { Message := "Audio capture reconfigured successfully", Type_ := "success" }

/-- The `switch signal` of `startControlMonitor`: one received control command. -/
def handleSignal (c : Collab) (w : World) (signal : String) : Step :=
  if signal = "rebuild_range_filter" then rebuildRangeFilterCase c w
  else if signal = "reload_birdnet" then reloadBirdnetCase c w
  else if signal = "reconfigure_rtsp_sources" then reconfigureRTSPSourcesCase c w
  else .ok (w.record (.log ("Received unknown control signal: " ++ signal)))

/-- The command names the `switch` of `startControlMonitor` has a case for. -/
def controlCommands : List String :=
  ["rebuild_range_filter", "reload_birdnet", "reconfigure_rtsp_sources"]

/-- Which case of a `select` over a data channel and `quitChan` fired. -/
inductive Select where
  | signal (s : String)
  | quit
  deriving DecidableEq, Repr

/-- Where a goroutine's loop stands after one iteration. -/
inductive LoopResult where
  | continue (w : World)
  | returned (w : World)
  | blocked (w : World)
  deriving DecidableEq, Repr

/-- One iteration of the `for { select { ... } }` of the control goroutine.
On `quitChan` the goroutine returns and its deferred `wg.Done()` runs. -/
def controlMonitorStep (c : Collab) (w : World) : Select → LoopResult
  | .signal s =>
    match handleSignal c w s with
    | .ok w1 => .continue w1
    | .blocked w1 => .blocked w1
  | .quit => .returned { w with wg := w.wg - 1 }

/-- The control goroutine run over a schedule of `select` outcomes, each with
the collaborator results in force while it is handled.  An exhausted schedule
leaves the goroutine waiting in its `select`. -/
def controlMonitor (w : World) : List (Select × Collab) → LoopResult
  | [] => .continue w
  | (sel, c) :: rest =>
    match controlMonitorStep c w sel with
    | .continue w1 => controlMonitor w1 rest
    | r => r

/-- The notifications among a list of events, in order. -/
def notifications : List Event → List Notification
  | [] => []
  | .notify n :: es => n :: notifications es
  | _ :: es => notifications es

/-- Whether an event is a call of one of the handler's collaborators. -/
def isCollaboratorCall : Event → Bool
  | .buildRangeFilter => true
  | .reloadModel => true
  | .updateMonitors _ => true
  | .reconfigureRTSPStreams => true
  | _ => false

/-! ### The retention scheduler (`clipCleanupMonitor`) -/

/-- What the environment supplies during one tick of the cleanup ticker: the
value `conf.Setting().Realtime.Audio.Export.Retention.Policy` holds at the first
and at the second comparison, and the errors the two cleanups return. -/
structure TickEnv where
  policyAtAgeCheck : String
  policyAtUsageCheck : String
  ageBasedCleanup : GoError
  usageBasedCleanup : GoError
  deriving DecidableEq, Repr

/-- The body of `case <-ticker.C:` in `clipCleanupMonitor`. -/
def cleanupTick (t : TickEnv) (w : World) : World :=
  let w :=
    if t.policyAtAgeCheck = "age" then
      let w := w.record .ageBasedCleanup
      match t.ageBasedCleanup with
      | some err => w.record (.log ("Error cleaning up clips:  " ++ err))
      | none => w
    else w
  if t.policyAtUsageCheck = "usage" then
    let w := w.record .usageBasedCleanup
    match t.usageBasedCleanup with
    | some err => w.record (.log ("Error cleaning up clips:  " ++ err))
    | none => w
  else w

/-- Which case of the `select` of `clipCleanupMonitor` fired. -/
inductive CleanupSelect where
  | quit
  | tick (t : TickEnv)
  deriving DecidableEq, Repr

/-- One iteration of the loop of `clipCleanupMonitor`; on `quitChan` the
goroutine returns and its deferred `wg.Done()` runs. -/
def clipCleanupMonitorStep (w : World) : CleanupSelect → LoopResult
  | .quit => .returned { w with wg := w.wg - 1 }
  | .tick t => .continue (cleanupTick t w)

/-- The loop of `clipCleanupMonitor` over a schedule of `select` outcomes. -/
def clipCleanupLoop (w : World) : List CleanupSelect → LoopResult
  | [] => .continue w
  | sel :: rest =>
    match clipCleanupMonitorStep w sel with
    | .continue w1 => clipCleanupLoop w1 rest
    | r => r

/-- The goroutine `clipCleanupMonitor`: it logs the policy it reads on entry,
then loops. -/
def clipCleanupMonitor (policyOnEntry : String) (w : World) (sched : List CleanupSelect) :
    LoopResult :=
  clipCleanupLoop (w.record (.log ("Clip retention policy: " ++ policyOnEntry))) sched

/-- The world a goroutine's loop result carries. -/
def LoopResult.world : LoopResult → World
  | .continue w => w
  | .returned w => w
  | .blocked w => w

/-- `startClipCleanupMonitor`: register on the WaitGroup, then spawn. -/
def startClipCleanupMonitor (w : World) : World :=
  { w with wg := w.wg + 1 }.record .spawnClipCleanupMonitor

/-- Lines 156-159 of `RealtimeAnalysis` together with the goroutine they may
start: `policyAtStartup` is what `conf.Setting()` holds when the supervisor
starts; the cleanup goroutine exists, and consumes the ticker's schedule, only
when that value is not `"none"`.  Without the goroutine there is no ticker, and
the passing of five-minute marks changes nothing. -/
def retentionScheduler (policyAtStartup : String) (w : World) (sched : List CleanupSelect) :
    World :=
  if policyAtStartup ≠ "none" then
    (clipCleanupMonitor policyAtStartup (startClipCleanupMonitor w) sched).world
  else w

/-- A tick during which the configuration holds `p` and the cleanups return
`ageErr` and `usageErr`. -/
def tickWith (p : String) (ageErr usageErr : GoError) : CleanupSelect :=
  .tick ⟨p, p, ageErr, usageErr⟩

/-! ### The supervisor (`RealtimeAnalysis`) -/

/-- The fields of `conf.Settings` that `RealtimeAnalysis` branches on. -/
structure Settings where
  rtspURLs : List String
  audioSource : String
  thumbnailsSummary : Bool
  thumbnailsRecent : Bool
  weatherProvider : String
  telemetryEnabled : Bool
  deriving DecidableEq, Repr

/-- What the collaborators return during startup and shutdown.  `hostInfoNil`
says that `host.Info()` handed back a nil pointer, which the next statement
dereferences; `retentionPolicy` is the value `conf.Setting()` holds at line 157. -/
structure StartupEnv where
  initializeBirdNET : GoError
  hostInfo : GoError
  hostInfoNil : Bool
  datastoreOpen : GoError
  initAnalysisBuffers : GoError
  initCaptureBuffers : GoError
  newMetrics : GoError
  retentionPolicy : String
  weatherNewService : GoError
  telemetryNewEndpoint : GoError
  datastoreClose : GoError
  deriving DecidableEq, Repr

/-- How a run of `RealtimeAnalysis` stands: it returned (with its error value),
it crashed, it is parked in the `select` of its main loop with nothing to
receive, or it is parked in `wg.Wait()`. -/
inductive Outcome where
  | returned (err : GoError) (w : World)
  | panicked (w : World)
  | waiting (w : World)
  | blockedAtWait (w : World)
  deriving DecidableEq, Repr

/-- The world an outcome carries. -/
def Outcome.world : Outcome → World
  | .returned _ w => w
  | .panicked w => w
  | .waiting w => w
  | .blockedAtWait w => w

/-- The list `sources` prepared at lines 92-100 of `RealtimeAnalysis`. -/
def startupSources (st : Settings) : List String :=
  let sources : List String := []
  if st.rtspURLs.length > 0 ∨ st.audioSource ≠ "" then
    let sources := if st.rtspURLs.length > 0 then st.rtspURLs else sources
    if st.audioSource ≠ "" then sources ++ ["malgo"] else sources
  else sources

/-- `closeDataStore`: close the database and log the result. -/
def closeDataStore (closeErr : GoError) (w : World) : World :=
  let w := w.record .datastoreClose
  match closeErr with
  | some err => w.record (.log ("Failed to close database: " ++ err))
  | none => w.record (.log "Successfully closed database")

/-- The effect of `defer closeDataStore(dataStore)` on the way out of
`RealtimeAnalysis`: it runs when the function returns or unwinds, not while the
function is parked. -/
def withDeferredClose (closeErr : GoError) : Outcome → Outcome
  | .returned err w => .returned err (closeDataStore closeErr w)
  | .panicked w => .panicked (closeDataStore closeErr w)
  | o => o

/-- `startAudioCapture`: spawn `myaudio.CaptureAudio`; the function itself does
not touch the WaitGroup. -/
def startAudioCapture (w : World) : World :=
  w.record .spawnCaptureAudio

/-- `startWeatherPolling`: create the service; register and spawn on success. -/
def startWeatherPolling (env : StartupEnv) (w : World) : World :=
  let w := w.record .weatherNewService
  match env.weatherNewService with
  | some err => w.record (.log ("⛈️ Failed to initialize weather service: " ++ err))
  | none => { w with wg := w.wg + 1 }.record .spawnWeatherPolling

/-- `startTelemetryEndpoint`: start the metrics endpoint when enabled. -/
def startTelemetryEndpoint (st : Settings) (env : StartupEnv) (w : World) : World :=
  if st.telemetryEnabled then
    let w := w.record .telemetryNewEndpoint
    match env.telemetryNewEndpoint with
    | some err => w.record (.log ("Error initializing telemetry endpoint: " ++ err))
    | none => w.record .telemetryEndpointStart
  else w

/-- `startControlMonitor` as seen by its caller: register, then spawn. -/
def startControlMonitor (w : World) : World :=
  { w with wg := w.wg + 1 }.record .spawnControlMonitor

/-- `monitorCtrlC`: spawn the SIGINT goroutine. -/
def monitorCtrlC (w : World) : World :=
  w.record .spawnCtrlCMonitor

/-- The `case <-quitChan:` arm of the main loop.  `exits` is the number of
`wg.Done()` calls the other goroutines perform while the supervisor is in
`wg.Wait()`; `Wait` returns once the counter is zero, and the event `wgWait`
marks that return. -/
def shutdown (exits : Nat) (w : World) : Outcome :=
  let w := w.record .closeControlChan
  let w := w.record .removeAllMonitors
  if w.wg ≤ (exits : Int) then
    let w := { w with wg := 0 }.record .wgWait
    let w := w.record .birdnetDelete
    .returned none w
  else .blockedAtWait w

/-- The `case <-restartChan:` arm of the main loop. -/
def restartArm (w : World) : World :=
  startAudioCapture (w.record (.log "🔄 Restarting audio capture"))

/-- The main loop of `RealtimeAnalysis`, from a state in which `restartChan`
holds the given number of pending requests and `quitChan` is closed or not, with
no further arrivals.  Each receive from `restartChan` takes one request.  When
both cases of the `select` are ready Go picks one of them; `choices` resolves
those picks, `false` for the restart case, anything else for quit. -/
def mainLoop (quitClosed : Bool) (exits : Nat) : Nat → List Bool → World → Outcome
  | 0, _, w => if quitClosed then shutdown exits w else .waiting w
  | k + 1, choices, w =>
    if quitClosed then
      match choices with
      | false :: cs => mainLoop quitClosed exits k cs (restartArm w)
      | _ => shutdown exits w
    else mainLoop quitClosed exits k choices (restartArm w)

/-- State of the signalling channels and of the other goroutines during the
main loop. -/
structure RunEnv where
  restartPending : Nat
  quitClosed : Bool
  choices : List Bool
  exits : Nat
  deriving DecidableEq, Repr

/-- Lines 116-196 of `RealtimeAnalysis`: the detection queue, metrics, image
cache, processor and HTTP server, then the workers, then the main loop. -/
def startWorkers (st : Settings) (env : StartupEnv) (run : RunEnv) (sources : List String)
    (w : World) : Outcome :=
  let w := w.record .queueInit
  let w := w.record .newMetrics
  match env.newMetrics with
  | some err => .returned (some ("error initializing metrics: " ++ err)) w
  | none =>
    let w := if st.thumbnailsSummary || st.thumbnailsRecent then w.record .initBirdImageCache else w
    let w := w.record .processorNew
    let w := w.record .httpServerStart
    let w := w.record .newBufferManager
    let w :=
      if st.rtspURLs.length > 0 ∨ st.audioSource ≠ "" then w.record (.updateMonitors sources)
      else w.record (.log ("⚠️  Starting without active audio sources. You can configure " ++
        "audio devices or RTSP streams through the web interface."))
    let w := startAudioCapture w
    let w := if env.retentionPolicy ≠ "none" then startClipCleanupMonitor w else w
    let w := if st.weatherProvider ≠ "none" then startWeatherPolling env w else w
    let w := startTelemetryEndpoint st env w
    let w := startControlMonitor w
    let w := monitorCtrlC w
    mainLoop run.quitClosed run.exits run.restartPending run.choices w

/-- Lines 82-114 of `RealtimeAnalysis`: the channels and the audio buffers. -/
def prepareBuffers (st : Settings) (env : StartupEnv) (run : RunEnv) (w : World) : Outcome :=
  let sources := startupSources st
  if st.rtspURLs.length > 0 ∨ st.audioSource ≠ "" then
    let w := w.record (.initAnalysisBuffers sources)
    match env.initAnalysisBuffers with
    | some err =>
      .returned (some err) (w.record (.log ("❌ Error initializing analysis buffers: " ++ err)))
    | none =>
      let w := w.record (.initCaptureBuffers sources)
      match env.initCaptureBuffers with
      | some err =>
        .returned (some err) (w.record (.log ("❌ Error initializing capture buffers: " ++ err)))
      | none => startWorkers st env run sources w
  else startWorkers st env run sources w

/-- The function `RealtimeAnalysis`.  The two `fmt.Printf` of system details and
analyzer parameters appear as log events carrying the constant part of their
text. -/
def RealtimeAnalysis (st : Settings) (env : StartupEnv) (run : RunEnv) (w : World) : Outcome :=
  let w := w.record .initializeBirdNET
  match env.initializeBirdNET with
  | some err => .returned (some err) w
  | none =>
    let w := w.record .hostInfo
    let w :=
      match env.hostInfo with
      | some err => w.record (.log ("❌ Error retrieving host info: " ++ err))
      | none => w
    if env.hostInfoNil then .panicked w
    else
      let w := w.record (.log "System details")
      let w := w.record (.log "Starting analyzer in realtime mode")
      let w := w.record .datastoreNew
      let w := w.record .datastoreOpen
      match env.datastoreOpen with
      | some err => .returned (some err) w
      | none => withDeferredClose env.datastoreClose (prepareBuffers st env run w)

/-- Whether an event starts a worker: a goroutine of the supervisor, the buffer
monitors, the detection processor's pool, the image-cache warmer, the telemetry
endpoint or the HTTP server. -/
def isWorkerStart : Event → Bool
  | .updateMonitors _ => true
  | .spawnCaptureAudio => true
  | .spawnClipCleanupMonitor => true
  | .spawnWeatherPolling => true
  | .telemetryEndpointStart => true
  | .spawnControlMonitor => true
  | .spawnCtrlCMonitor => true
  | .httpServerStart => true
  | .initBirdImageCache => true
  | .processorNew => true
  | .reconfigureRTSPStreams => true
  | _ => false

/-! ### The start functions, statement by statement -/

/-- A statement of a start function, as far as the WaitGroup and the goroutines
are concerned: `wg.Add(1)`, a `go` statement (recorded as the given event), or
any other recorded call. -/
inductive Stmt where
  | wgAdd
  | go (worker : Event)
  | call (e : Event)
  deriving DecidableEq, Repr

/-- Execute one statement. -/
def Stmt.exec : Stmt → World → World
  | .wgAdd, w => { w with wg := w.wg + 1 }
  | .go worker, w => w.record worker
  | .call e, w => w.record e

/-- Execute statements in program order. -/
def execStmts : List Stmt → World → World
  | [], w => w
  | s :: rest, w => execStmts rest (s.exec w)

/-- The value of the WaitGroup counter at each `go` statement of a statement
list, in program order. -/
def countersAtSpawn : List Stmt → World → List (Event × Int)
  | [], _ => []
  | .go worker :: rest, w => (worker, w.wg) :: countersAtSpawn rest ((Stmt.go worker).exec w)
  | s :: rest, w => countersAtSpawn rest (s.exec w)

/-- The body of `startAudioCapture` (lines 199-202): a single `go` statement. -/
def startAudioCaptureBody : List Stmt :=
  [.go .spawnCaptureAudio]

/-- The body of `startClipCleanupMonitor` (lines 205-208). -/
def startClipCleanupMonitorBody : List Stmt :=
  [.wgAdd, .go .spawnClipCleanupMonitor]

/-- The body of `startWeatherPolling` (lines 211-224). -/
def startWeatherPollingBody (env : StartupEnv) : List Stmt :=
  .call .weatherNewService ::
    match env.weatherNewService with
    | some err => [.call (.log ("⛈️ Failed to initialize weather service: " ++ err))]
    | none => [.wgAdd, .go .spawnWeatherPolling]

/-- The statements of `startControlMonitor` outside its goroutine (lines 360-362). -/
def startControlMonitorBody : List Stmt :=
  [.wgAdd, .go .spawnControlMonitor]

/-- The goroutine of `startWeatherPolling`: `defer wg.Done()`, then
`weatherService.StartPolling(quitChan)`; it is over when `StartPolling` returns. -/
def weatherPollingWorker (pollingReturned : Bool) (w : World) : LoopResult :=
  if pollingReturned then .returned { w with wg := w.wg - 1 } else .continue w

/-! ### The image-cache warmer (`initBirdImageCache`) -/

/-- One element of `speciesList` together with what the collaborators return
for it: the result of `ds.GetImageCache` (its error, and whether the entry it
returns is non-nil) and the error of `birdImageCache.Get`. -/
structure WarmEntry where
  name : String
  lookupErr : GoError
  lookupFound : Bool
  fetchErr : GoError
  deriving DecidableEq, Repr

/-- The test `err == nil && cached != nil` that makes the loop skip a species. -/
def WarmEntry.alreadyCached (e : WarmEntry) : Bool :=
  e.lookupErr.isNone && e.lookupFound

/-- Whether the loop spawns a fetch goroutine for the species. -/
def WarmEntry.needsFetch (e : WarmEntry) : Bool :=
  !e.alreadyCached

/-- A fetch goroutine: the species name it was given and what its call of
`birdImageCache.Get` returns. -/
structure Fetch where
  name : String
  result : GoError
  deriving DecidableEq, Repr

/-- The fetch goroutine the loop spawns for a species. -/
def WarmEntry.fetch (e : WarmEntry) : Fetch :=
  ⟨e.name, e.fetchErr⟩

/-- `Initializing.Store(name, struct{}{})` on the keys of the `sync.Map`. -/
def storeKey (name : String) (keys : List String) : List String :=
  if name ∈ keys then keys else keys ++ [name]

/-- `Initializing.Delete(name)` on the keys of the `sync.Map`. -/
def deleteKey (name : String) (keys : List String) : List String :=
  keys.filter (fun k => k ≠ name)

/-- State of the background goroutine of `initBirdImageCache` and of the fetch
goroutines it spawned.  Each fetch goroutine is in one of six places: before its
`sem <- struct{}{}` completes (`spawned`), inside `birdImageCache.Get`
(`fetching`), after `Get` with its deferred calls pending (`fetched`), after the
permit is given back (`released`), after `Initializing.Delete` (`unmarked`),
and over, after `wg.Done()` (`finished`).  `sem` is the number of elements in the
channel `sem`, `wg` the counter of the WaitGroup declared at line 316,
`initializing` the keys of `birdImageCache.Initializing`.  `marked` lists the
names the loop has stored and `gets` the completed calls of `Get`; `over` says
that the background goroutine has returned. -/
structure Warmer where
  todo : List WarmEntry
  spawned : List Fetch
  fetching : List Fetch
  fetched : List Fetch
  released : List Fetch
  unmarked : List Fetch
  finished : List Fetch
  sem : Nat
  wg : Int
  needsImage : Nat
  initializing : List String
  marked : List String
  gets : List Fetch
  logs : List String
  over : Bool
  deriving DecidableEq, Repr

/-- The background goroutine as it starts: nothing spawned, an empty semaphore
and a fresh WaitGroup. -/
def Warmer.start (speciesList : List WarmEntry) (initializing : List String) : Warmer :=
  { todo := speciesList, spawned := [], fetching := [], fetched := [], released := [],
    unmarked := [], finished := [], sem := 0, wg := 0, needsImage := 0,
    initializing := initializing, marked := [], gets := [], logs := [], over := false }

/-- `initBirdImageCache` up to the `go` statement: the background goroutine is
started only when the cache was created and the species list was read. -/
def initBirdImageCache (createErr speciesErr : GoError) (speciesList : List WarmEntry)
    (initializing : List String) : Option Warmer :=
  match createErr with
  | some _ => none
  | none =>
    match speciesErr with
    | some _ => none
    | none => some (Warmer.start speciesList initializing)

/-- A move of one of the goroutines: an iteration of the loop over
`speciesList`, the statements after the loop, or the next statement of a fetch
goroutine. -/
inductive WarmAction where
  | loop
  | afterLoop
  | acquire (f : Fetch)
  | getReturns (f : Fetch)
  | release (f : Fetch)
  | unmark (f : Fetch)
  | done (f : Fetch)
  deriving DecidableEq, Repr

/-- One move.  A move that is not possible in the state (the goroutine is not
there, the semaphore is full, the WaitGroup is not at zero) changes nothing. -/
def Warmer.step (s : Warmer) : WarmAction → Warmer
  | .loop =>
    match s.todo with
    | [] => s
    | e :: rest =>
      if e.alreadyCached then { s with todo := rest }
      else
        { s with todo := rest, needsImage := s.needsImage + 1, wg := s.wg + 1,
                 initializing := storeKey e.name s.initializing,
                 marked := e.name :: s.marked,
                 spawned := s.spawned ++ [e.fetch] }
  | .afterLoop =>
    if s.todo = [] ∧ s.over = false then
      if s.needsImage > 0 then
        if s.wg = 0 then
          { s with over := true,
                   logs := s.logs ++ ["Finished initializing BirdImageCache (" ++
                     toString s.needsImage ++ " species needed images)"] }
        else s
      else
        { s with over := true,
                 logs := s.logs ++ ["BirdImageCache initialized (all species images already cached)"] }
    else s
  | .acquire f =>
    if f ∈ s.spawned ∧ s.sem < 5 then
      { s with spawned := s.spawned.erase f, fetching := s.fetching ++ [f], sem := s.sem + 1 }
    else s
  | .getReturns f =>
    if f ∈ s.fetching then
      { s with fetching := s.fetching.erase f, fetched := s.fetched ++ [f],
               gets := s.gets ++ [f],
               logs :=
                 match f.result with
                 | some err => s.logs ++ ["Failed to fetch image for " ++ f.name ++ ": " ++ err]
                 | none => s.logs }
    else s
  | .release f =>
    if f ∈ s.fetched then
      { s with fetched := s.fetched.erase f, released := s.released ++ [f], sem := s.sem - 1 }
    else s
  | .unmark f =>
    if f ∈ s.released then
      { s with released := s.released.erase f, unmarked := s.unmarked ++ [f],
               initializing := deleteKey f.name s.initializing }
    else s
  | .done f =>
    if f ∈ s.unmarked then
      { s with unmarked := s.unmarked.erase f, finished := s.finished ++ [f], wg := s.wg - 1 }
    else s

/-- Run a schedule of moves. -/
def Warmer.run : List WarmAction → Warmer → Warmer
  | [], s => s
  | a :: rest, s => Warmer.run rest (s.step a)

/-- The moves that carry one species through the loop and its fetch goroutine
to the end before anything else happens. -/
def entrySchedule (e : WarmEntry) : List WarmAction :=
  if e.alreadyCached then [.loop]
  else [.loop, .acquire e.fetch, .getReturns e.fetch, .release e.fetch, .unmark e.fetch,
    .done e.fetch]

/-- A schedule that handles the species one after the other and then runs the
statements after the loop. -/
def sequentialSchedule : List WarmEntry → List WarmAction
  | [] => [.afterLoop]
  | e :: rest => entrySchedule e ++ sequentialSchedule rest

/-- What holds in every state the warmer can reach from `Warmer.start entries
init0`: the semaphore counts the goroutines between acquire and release and
never exceeds its capacity, the WaitGroup counts the goroutines that are not
over, every completed `Get` belongs to a goroutine past it, the goroutines
together with the species still to come are those of the list that need a
fetch, and a key of `Initializing` is either the mark of a goroutine that has
not deleted it yet or a key that was there at the start and was never marked. -/
structure Warmer.Inv (entries : List WarmEntry) (init0 : List String) (s : Warmer) : Prop where
  sem_eq : s.sem = s.fetching.length + s.fetched.length
  sem_le : s.sem ≤ 5
  wg_eq : s.wg = ((s.spawned.length + s.fetching.length + s.fetched.length +
    s.released.length + s.unmarked.length : Nat) : Int)
  needs_eq : s.needsImage = s.spawned.length + s.fetching.length + s.fetched.length +
    s.released.length + s.unmarked.length + s.finished.length
  gets_count : ∀ x, s.gets.count x =
    s.fetched.count x + s.released.count x + s.unmarked.count x + s.finished.count x
  all_count : ∀ x, s.spawned.count x + s.fetching.count x + s.fetched.count x +
      s.released.count x + s.unmarked.count x + s.finished.count x +
      ((s.todo.filter WarmEntry.needsFetch).map WarmEntry.fetch).count x =
    ((entries.filter WarmEntry.needsFetch).map WarmEntry.fetch).count x
  init_inv : ∀ m ∈ s.initializing,
    (∃ f ∈ s.spawned ++ s.fetching ++ s.fetched ++ s.released, f.name = m) ∨
      (m ∈ init0 ∧ m ∉ s.marked)
  marked_inv : ∀ e ∈ entries, e.needsFetch = true → e ∈ s.todo ∨ e.name ∈ s.marked
  over_inv : s.over = true → s.todo = [] ∧ s.wg = 0

/-- The supervisor's world and the image-cache warmer side by side.  The warmer
is absent when thumbnails are off or `initBirdImageCache` gave up early. -/
structure System where
  world : World
  warmer : Option Warmer
  deriving DecidableEq, Repr

/-- A move of the warmer's goroutines within the system.  They work on the
channel `sem`, on `Initializing` and on the WaitGroup declared at line 316,
inside the background goroutine; the supervisor's WaitGroup, declared at line
141 after `initBirdImageCache` has been called, is not among their variables. -/
def System.warm (sys : System) (a : WarmAction) : System :=
  { sys with warmer := sys.warmer.map (fun s => s.step a) }

/-- A schedule of warmer moves within the system. -/
def System.warmAll : List WarmAction → System → System
  | [], sys => sys
  | a :: rest, sys => System.warmAll rest (sys.warm a)

/-- The quit arm of the main loop within the system: it waits on the
supervisor's WaitGroup; the warmer stays as it is. -/
def System.quit (exits : Nat) (sys : System) : Outcome × Option Warmer :=
  (shutdown exits sys.world, sys.warmer)

/-- Number of fetch goroutines of the warmer that are not over. -/
def Warmer.live (s : Warmer) : Nat :=
  s.spawned.length + s.fetching.length + s.fetched.length + s.released.length +
    s.unmarked.length

end Realtime

/-!
# birdnet-go: clip names and headers (`internal/httpcontroller/handlers/media.go`)

Go strings are byte sequences; they are modelled as lists of byte values.  The
functions of the Go standard library that `media.go` calls (`url.QueryUnescape`,
`url.QueryEscape`, `filepath.Clean`, `filepath.Join`, `strings.Map`, ...) are
written out after their documented behaviour on a system whose path separator
is `/`.
-/

namespace Media

/-- A Go string: its bytes. -/
abbrev Bytes := List Nat

deriving instance DecidableEq for Except

/-- The bytes of an ASCII literal. -/
def ascii (s : String) : Bytes :=
  s.toList.map Char.toNat

/-- The constant `MaxClipNameLength`. -/
def MaxClipNameLength : Nat := 255

/-- The path separator `/`. -/
def slash : Nat := 47

/-- The string `"."`. -/
def dot : Bytes := [46]

/-- The string `".."`. -/
def dotdot : Bytes := [46, 46]

/-- `strings.HasPrefix`. -/
def hasPrefix (s pre : Bytes) : Bool :=
  pre.isPrefixOf s

/-- `strings.TrimPrefix`. -/
def trimPrefix (s pre : Bytes) : Bytes :=
  if hasPrefix s pre then s.drop pre.length else s

/-- `strings.Contains`. -/
def contains : Bytes → Bytes → Bool
  | [], sub => sub.isEmpty
  | c :: s, sub => hasPrefix (c :: s) sub || contains s sub

/-- Whether a byte is an ASCII hexadecimal digit (`ishex` of `net/url`). -/
def ishex (c : Nat) : Bool :=
  (48 ≤ c && c ≤ 57) || (97 ≤ c && c ≤ 102) || (65 ≤ c && c ≤ 70)

/-- The value of a hexadecimal digit (`unhex` of `net/url`). -/
def unhex (c : Nat) : Nat :=
  if 48 ≤ c ∧ c ≤ 57 then c - 48
  else if 97 ≤ c ∧ c ≤ 102 then c - 97 + 10
  else if 65 ≤ c ∧ c ≤ 70 then c - 65 + 10
  else 0

/-- `url.QueryUnescape`: `%XX` becomes the byte `XX`, `+` becomes a space; a
`%` not followed by two hexadecimal digits is an error, which carries the
offending bytes (at most three). -/
def queryUnescape : Bytes → Except Bytes Bytes
  | [] => .ok []
  | c :: rest =>
    if c = 37 then
      match rest with
      | a :: b :: rest1 =>
        if ishex a && ishex b then
          match queryUnescape rest1 with
          | .ok t => .ok ((unhex a * 16 + unhex b) :: t)
          | .error e => .error e
        else .error [37, a, b]
      | _ => .error (37 :: rest)
    else
      match queryUnescape rest with
      | .ok t => .ok ((if c = 43 then 32 else c) :: t)
      | .error e => .error e

/-- Membership of a byte in the class `[a-zA-Z0-9_/.-]` of `AllowedCharacters`. -/
def allowedByte (c : Nat) : Bool :=
  (97 ≤ c && c ≤ 122) || (65 ≤ c && c ≤ 90) || (48 ≤ c && c ≤ 57) ||
    c = 95 || c = 47 || c = 46 || c = 45

/-- `regexp.MustCompile(AllowedCharacters).MatchString`: the pattern
`^[a-zA-Z0-9_/.-]+$` matches a string that is not empty and all of whose bytes
are in the class (a byte outside ASCII belongs to a rune outside the class). -/
def matchAllowedCharacters (s : Bytes) : Bool :=
  !s.isEmpty && s.all allowedByte

/-- `strings.Split(s, "/")`. -/
def splitSlash : Bytes → List Bytes
  | [] => [[]]
  | c :: rest =>
    if c = slash then [] :: splitSlash rest
    else
      match splitSlash rest with
      | [] => [[c]]
      | p :: ps => (c :: p) :: ps

/-- `strings.Join(elems, "/")`. -/
def joinSlash : List Bytes → Bytes
  | [] => []
  | [c] => c
  | c :: rest => c ++ slash :: joinSlash rest

/-- `filepath.IsAbs` where the separator is `/`. -/
def isAbs (path : Bytes) : Bool :=
  path.head? = some slash

/-- One element in the loop of `filepath.Clean`, on the elements kept so far
(most recent first): an empty element or `.` is dropped; `..` removes the last
kept element when there is one that is not itself `..`, is dropped at the root
of a rooted path, and is kept otherwise; any other element is kept. -/
def cleanStep (rooted : Bool) (kept : List Bytes) (elem : Bytes) : List Bytes :=
  if elem = [] ∨ elem = dot then kept
  else if elem = dotdot then
    match kept with
    | top :: below => if top = dotdot then dotdot :: kept else below
    | [] => if rooted then [] else [dotdot]
  else elem :: kept

/-- The elements of the cleaned path, in order. -/
def pathElements (path : Bytes) : List Bytes :=
  ((splitSlash path).foldl (cleanStep (isAbs path)) []).reverse

/-- What an element of a cleaned path is like: not empty and without `/`. -/
def goodElem (e : Bytes) : Prop :=
  e ≠ [] ∧ slash ∉ e

/-- The text of a cleaned path from its elements: rooted paths start with `/`,
an unrooted path without elements is `.`. -/
def renderPath (rooted : Bool) (elems : List Bytes) : Bytes :=
  if rooted then slash :: joinSlash elems
  else if elems = [] then dot
  else joinSlash elems

/-- `filepath.Clean` where the separator is `/`. -/
def filepathClean (path : Bytes) : Bytes :=
  if path = [] then dot
  else renderPath (isAbs path) (pathElements path)

/-- `filepath.Join` of two elements where the separator is `/`: the elements
from the first non-empty one on are joined with `/` and cleaned; when both are
empty the result is empty. -/
def filepathJoin (a b : Bytes) : Bytes :=
  if a ≠ [] then filepathClean (a ++ slash :: b)
  else if b ≠ [] then filepathClean b
  else []

/-- `filepath.ToSlash` where the separator is `/`. -/
def toSlash (path : Bytes) : Bytes := path

/-- The errors of `sanitizeClipName`: the four package errors, the wrapped
decoding error with the offending escape, and the error for an absolute path
outside the export directory. -/
inductive ClipError where
  | ErrEmptyClipName
  | decoding (escape : Bytes)
  | ErrClipNameTooLong
  | ErrInvalidCharacters
  | ErrPathTraversal
  | notUnderExportDirectory
  deriving DecidableEq, Repr

/-- The function `sanitizeClipName`; `exportPath` is the value of
`conf.Setting().Realtime.Audio.Export.Path`.  The calls of `h.Debug` are left
out. -/
def sanitizeClipName (exportPath clipName : Bytes) : Except ClipError Bytes :=
  if clipName = [] then .error .ErrEmptyClipName
  else
    match queryUnescape clipName with
    | .error e => .error (.decoding e)
    | .ok decodedClipName =>
      if decodedClipName.length > MaxClipNameLength then .error .ErrClipNameTooLong
      else if !matchAllowedCharacters decodedClipName then .error .ErrInvalidCharacters
      else
        let cleanPath := filepathClean decodedClipName
        if contains cleanPath dotdot then .error .ErrPathTraversal
        else
          let cleanPath := trimPrefix cleanPath (ascii "clips/")
          if isAbs cleanPath then
            if hasPrefix cleanPath exportPath then
              let cleanPath := trimPrefix cleanPath exportPath
              let cleanPath := trimPrefix cleanPath [slash]
              .ok (toSlash cleanPath)
            else .error .notUnderExportDirectory
          else .ok (toSlash cleanPath)

/-- Whether an element survives cleaning when no `..` is around: it is neither
empty nor `.`. -/
def isRealElem (c : Bytes) : Bool :=
  c ≠ [] && c ≠ dot

/-- The function `getFullPath`. -/
def getFullPath (exportPath relativePath : Bytes) : Bytes :=
  filepathJoin exportPath relativePath

/-! ### `sanitizeContentDispositionFilename` -/

/-- The mapping function given to `strings.Map`, on a rune: `"` becomes `'`,
control characters are dropped (`none` stands for the negative return value),
the characters `\ / : * ? < > |` become `_`, anything else stays. -/
def dispositionMapping (r : Nat) : Option Nat :=
  if r = 34 then some 39
  else if r < 32 then none
  else if r = 92 ∨ r = 47 ∨ r = 58 ∨ r = 42 ∨ r = 63 ∨ r = 60 ∨ r = 62 ∨ r = 124 then some 95
  else some r

/-- The UTF-8 encoding of a rune as `utf8.AppendRune` writes it; a surrogate or
a value above `0x10FFFF` is written as U+FFFD. -/
def utf8Encode (r : Nat) : Bytes :=
  if r < 0x80 then [r]
  else if r < 0x800 then [0xC0 + r / 64, 0x80 + r % 64]
  else if (0xD800 ≤ r ∧ r ≤ 0xDFFF) ∨ 0x10FFFF < r then [0xEF, 0xBF, 0xBD]
  else if r < 0x10000 then [0xE0 + r / 4096, 0x80 + r / 64 % 64, 0x80 + r % 64]
  else [0xF0 + r / 262144, 0x80 + r / 4096 % 64, 0x80 + r / 64 % 64, 0x80 + r % 64]

/-- `strings.Map` on the runes of its argument (as ranging over the string
decodes them): every rune is mapped, dropped runes leave nothing, the others
are written in UTF-8. -/
def stringsMap (mapping : Nat → Option Nat) : List Nat → Bytes
  | [] => []
  | r :: rest =>
    (match mapping r with
      | some r1 => utf8Encode r1
      | none => []) ++ stringsMap mapping rest

/-- Whether a byte is an ASCII letter or digit. -/
def isAlnum (c : Nat) : Bool :=
  (97 ≤ c && c ≤ 122) || (65 ≤ c && c ≤ 90) || (48 ≤ c && c ≤ 57)

/-- `shouldEscape(c, encodeQueryComponent)` of `net/url`: everything is escaped
but letters, digits and `- _ . ~`. -/
def shouldEscape (c : Nat) : Bool :=
  !(isAlnum c || c = 45 || c = 95 || c = 46 || c = 126)

/-- The digit `"0123456789ABCDEF"[n]`. -/
def upperhex (n : Nat) : Nat :=
  if n < 10 then 48 + n else 55 + n

/-- `url.QueryEscape`: a space becomes `+`, any other escaped byte becomes `%`
and its two hexadecimal digits. -/
def queryEscape : Bytes → Bytes
  | [] => []
  | c :: rest =>
    (if shouldEscape c then
        if c = 32 then [43] else [37, upperhex (c / 16 % 16), upperhex (c % 16)]
      else [c]) ++ queryEscape rest

/-- The function `sanitizeContentDispositionFilename`, on the runes of the
file name. -/
def sanitizeContentDispositionFilename (filename : List Nat) : Bytes :=
  let sanitized := stringsMap dispositionMapping filename
  let encoded := queryEscape sanitized
  encoded

/-- The bytes `url.QueryEscape` can write: letters, digits and `- _ . ~ % +`. -/
def headerSafeByte (b : Nat) : Bool :=
  isAlnum b || b = 45 || b = 95 || b = 46 || b = 126 || b = 37 || b = 43

/-! ### `ThumbnailAttribution` -/

/-- The fields of `imageprovider.BirdImage`. -/
structure BirdImage where
  URL : String
  AuthorName : String
  AuthorURL : String
  LicenseName : String
  LicenseURL : String
  deriving DecidableEq, Repr

/-- `html.EscapeString` on one character. -/
def htmlEscapeChar (c : Char) : List Char :=
  if c.toNat = 38 then "&amp;".toList
  else if c.toNat = 39 then "&#39;".toList
  else if c.toNat = 60 then "&lt;".toList
  else if c.toNat = 62 then "&gt;".toList
  else if c.toNat = 34 then "&#34;".toList
  else [c]

/-- `html.EscapeString`. -/
def htmlEscapeString (s : String) : String :=
  String.mk (s.toList.foldr (fun c acc => htmlEscapeChar c ++ acc) [])

/-- The digit `"0123456789abcdef"[n]`. -/
def lowerhex (n : Nat) : Char :=
  Char.ofNat (if n < 10 then 48 + n else 87 + n)

/-- One rune of `strconv.Quote`: `"` and `\` get a backslash, printable runes
are kept, the usual control characters get their letter, other control
characters `\x` and two digits, other runes `\u` and four digits or `\U` and
eight.  `isPrint` stands for `strconv.IsPrint` outside ASCII, where it is
decided by tables of the Go library. -/
def quoteChar (isPrint : Char → Bool) (c : Char) : List Char :=
  let r := c.toNat
  if r = 34 ∨ r = 92 then [Char.ofNat 92, c]
  else if (32 ≤ r ∧ r < 127) ∨ (128 ≤ r ∧ isPrint c = true) then [c]
  else if r = 7 then [Char.ofNat 92, Char.ofNat 97]
  else if r = 8 then [Char.ofNat 92, Char.ofNat 98]
  else if r = 12 then [Char.ofNat 92, Char.ofNat 102]
  else if r = 10 then [Char.ofNat 92, Char.ofNat 110]
  else if r = 13 then [Char.ofNat 92, Char.ofNat 114]
  else if r = 9 then [Char.ofNat 92, Char.ofNat 116]
  else if r = 11 then [Char.ofNat 92, Char.ofNat 118]
  else if r < 32 ∨ r = 127 then [Char.ofNat 92, Char.ofNat 120, lowerhex (r / 16 % 16), lowerhex (r % 16)]
  else if r < 65536 then
    [Char.ofNat 92, Char.ofNat 117, lowerhex (r / 4096 % 16), lowerhex (r / 256 % 16),
      lowerhex (r / 16 % 16), lowerhex (r % 16)]
  else
    [Char.ofNat 92, Char.ofNat 85, lowerhex (r / 268435456 % 16), lowerhex (r / 16777216 % 16),
      lowerhex (r / 1048576 % 16), lowerhex (r / 65536 % 16), lowerhex (r / 4096 % 16),
      lowerhex (r / 256 % 16), lowerhex (r / 16 % 16), lowerhex (r % 16)]

/-- The verb `%q` of `fmt` on a string, that is `strconv.Quote`: the quoted
runes between two double quotes. -/
def strconvQuote (isPrint : Char → Bool) (s : String) : String :=
  String.mk (Char.ofNat 34 :: s.toList.foldr (fun c acc => quoteChar isPrint c ++ acc)
    [Char.ofNat 34])

/-- The function `ThumbnailAttribution`: `cacheNil` says that
`h.BirdImageCache` is nil, `get` is what `h.BirdImageCache.Get` returns. -/
def ThumbnailAttribution (isPrint : Char → Bool) (cacheNil : Bool)
    (get : Except String BirdImage) : String :=
  if cacheNil then ""
  else
    match get with
    | .error _ => ""
    | .ok birdImage =>
      if birdImage.AuthorName = "" ∨ birdImage.LicenseName = "" then ""
      else if birdImage.AuthorURL = "" then
        "© " ++ htmlEscapeString birdImage.AuthorName ++ " / <a href=\"" ++
          strconvQuote isPrint (htmlEscapeString birdImage.LicenseURL) ++ "\">" ++
          htmlEscapeString birdImage.LicenseName ++ "</a>"
      else
        "© <a href=\"" ++ strconvQuote isPrint (htmlEscapeString birdImage.AuthorURL) ++ "\">" ++
          htmlEscapeString birdImage.AuthorName ++ "</a> / <a href=\"" ++
          strconvQuote isPrint (htmlEscapeString birdImage.LicenseURL) ++ "\">" ++
          htmlEscapeString birdImage.LicenseName ++ "</a>"

/-- The attribution the format is meant to produce, with each URL inside one
pair of double quotes. -/
def wellFormedAttribution (birdImage : BirdImage) : String :=
  if birdImage.AuthorURL = "" then
    "© " ++ htmlEscapeString birdImage.AuthorName ++ " / <a href=\"" ++
      htmlEscapeString birdImage.LicenseURL ++ "\">" ++
      htmlEscapeString birdImage.LicenseName ++ "</a>"
  else
    "© <a href=\"" ++ htmlEscapeString birdImage.AuthorURL ++ "\">" ++
      htmlEscapeString birdImage.AuthorName ++ "</a> / <a href=\"" ++
      htmlEscapeString birdImage.LicenseURL ++ "\">" ++
      htmlEscapeString birdImage.LicenseName ++ "</a>"

end Media

namespace Realtime

/-! ## Channel lemmas -/

theorem record_events (w : World) (e : Event) : (w.record e).events = w.events ++ [e] := rfl

theorem record_free (w : World) (e : Event) : (w.record e).free = w.free := rfl

theorem record_canSend (w : World) (e : Event) : (w.record e).canSend = w.canSend := rfl

theorem canSend_iff_free (w : World) : w.canSend = true ↔ 0 < w.free := by
  simp only [World.canSend, World.free, Bool.or_eq_true, decide_eq_true_eq]
  omega

theorem deliver_events (w : World) (n : Notification) :
    (w.deliver n).events = w.events ++ [.notify n] := by
  unfold World.deliver
  split <;> rfl

theorem deliver_free (w : World) (n : Notification) (h : 0 < w.free) :
    (w.deliver n).free + 1 = w.free := by
  unfold World.deliver World.free at *
  split
  · simp only [List.length_append, List.length_singleton]
    omega
  · simp only [List.length_tail, List.length_append, List.length_singleton]
    omega

theorem send_of_free (w : World) (n : Notification) (h : 0 < w.free) :
    send w n = .ok (w.deliver n) := by
  have hc : w.canSend = true := (canSend_iff_free w).2 h
  simp [send, hc]

theorem send_of_not_free (w : World) (n : Notification) (h : w.free = 0) :
    send w n = .blocked w := by
  have hc : w.canSend = false := by
    cases hb : w.canSend
    · rfl
    · have := (canSend_iff_free w).1 hb
      omega
  simp [send, hc]

theorem notifications_append (xs ys : List Event) :
    notifications (xs ++ ys) = notifications xs ++ notifications ys := by
  induction xs with
  | nil => rfl
  | cons x xs ih => cases x <;> simp [notifications, ih]

/-! ## The arms of the control handler, evaluated -/

theorem rebuildRangeFilterCase_err (c : Collab) (w : World) (err : String)
    (hb : c.buildRangeFilter = some err) (h : 0 < w.free) :
    rebuildRangeFilterCase c w = .ok
      (((w.record .buildRangeFilter).record
          (.log ("\x1b[31m❌ Error handling range filter rebuild: " ++ err ++ "\x1b[0m"))).deliver
        { Message := "Failed to rebuild range filter: " ++ err, Type_ := "error" }) := by
  simp only [rebuildRangeFilterCase, hb]
  exact send_of_free _ _ (by simpa [record_free] using h)

theorem rebuildRangeFilterCase_nil (c : Collab) (w : World)
    (hb : c.buildRangeFilter = none) (h : 0 < w.free) :
    rebuildRangeFilterCase c w = .ok
      (((w.record .buildRangeFilter).record
          (.log "\x1b[32m🔄 Range filter rebuilt successfully\x1b[0m")).deliver
        { Message := "Range filter rebuilt successfully", Type_ := "success" }) := by
  simp only [rebuildRangeFilterCase, hb]
  exact send_of_free _ _ (by simpa [record_free] using h)

theorem reloadBirdnetCase_err (c : Collab) (w : World) (err : String)
    (hr : c.reloadModel = some err) (h : 0 < w.free) :
    reloadBirdnetCase c w = .ok
      (((w.record .reloadModel).record
          (.log ("\x1b[31m❌ Error reloading BirdNET model: " ++ err ++ "\x1b[0m"))).deliver
        { Message := "Failed to reload BirdNET model: " ++ err, Type_ := "error" }) := by
  simp only [reloadBirdnetCase, hr]
  exact send_of_free _ _ (by simpa [record_free] using h)

theorem reloadBirdnetCase_nil_err (c : Collab) (w : World) (err : String)
    (hr : c.reloadModel = none) (hb : c.buildRangeFilter = some err) (h : 2 ≤ w.free) :
    reloadBirdnetCase c w = .ok
      ((((((w.record .reloadModel).record
          (.log "\x1b[32m✅ BirdNET model reloaded successfully\x1b[0m")).deliver
        { Message := "BirdNET model reloaded successfully", Type_ := "success" }).record
          .buildRangeFilter).record
          (.log ("\x1b[31m❌ Error rebuilding range filter after model reload: " ++ err ++ "\x1b[0m"))).deliver
        { Message := "Failed to rebuild range filter: " ++ err, Type_ := "error" }) := by
  simp only [reloadBirdnetCase, hr, hb]
  have h1 : 0 < ((w.record .reloadModel).record
      (.log "\x1b[32m✅ BirdNET model reloaded successfully\x1b[0m")).free := by
    simp only [record_free]; omega
  rw [send_of_free _ _ h1]
  simp only [Step.bind]
  have h2 := deliver_free _ { Message := "BirdNET model reloaded successfully", Type_ := "success" } h1
  simp only [record_free] at h2
  exact send_of_free _ _ (by simp only [record_free]; omega)

theorem reloadBirdnetCase_nil_nil (c : Collab) (w : World)
    (hr : c.reloadModel = none) (hb : c.buildRangeFilter = none) (h : 2 ≤ w.free) :
    reloadBirdnetCase c w = .ok
      ((((((w.record .reloadModel).record
          (.log "\x1b[32m✅ BirdNET model reloaded successfully\x1b[0m")).deliver
        { Message := "BirdNET model reloaded successfully", Type_ := "success" }).record
          .buildRangeFilter).record
          (.log "\x1b[32m✅ Range filter rebuilt successfully\x1b[0m")).deliver
        { Message := "Range filter rebuilt successfully", Type_ := "success" }) := by
  simp only [reloadBirdnetCase, hr, hb]
  have h1 : 0 < ((w.record .reloadModel).record
      (.log "\x1b[32m✅ BirdNET model reloaded successfully\x1b[0m")).free := by
    simp only [record_free]; omega
  rw [send_of_free _ _ h1]
  simp only [Step.bind]
  have h2 := deliver_free _ { Message := "BirdNET model reloaded successfully", Type_ := "success" } h1
  simp only [record_free] at h2
  exact send_of_free _ _ (by simp only [record_free]; omega)

theorem reconfigureRTSPSourcesCase_eq (c : Collab) (w : World) (h : 0 < w.free) :
    reconfigureRTSPSourcesCase c w = .ok
      (((((w.record (.log "\x1b[32m🔄 Reconfiguring RTSP sources...\x1b[0m")).record
          (.updateMonitors (reconfigureSources c.rtspURLs c.audioSource))).record
          .reconfigureRTSPStreams).record
          (.log "\x1b[32m✅ RTSP sources reconfigured successfully\x1b[0m")).deliver
        { Message := "Audio capture reconfigured successfully", Type_ := "success" }) := by
  simp only [reconfigureRTSPSourcesCase]
  exact send_of_free _ _ (by simpa [record_free] using h)

theorem controlMonitorStep_of_ok (c : Collab) (w w1 : World) (s : String)
    (h : handleSignal c w s = .ok w1) : controlMonitorStep c w (.signal s) = .continue w1 := by
  simp [controlMonitorStep, h]

theorem controlMonitor_cons_of_ok (c : Collab) (w w1 : World) (s : String)
    (h : handleSignal c w s = .ok w1) (rest : List (Select × Collab)) :
    controlMonitor w ((.signal s, c) :: rest) = controlMonitor w1 rest := by
  simp [controlMonitor, controlMonitorStep, h]

/-! ## The control handler -/

/-- C1, as the code has it: the sends are plain channel sends, so the claim
holds when the channel can take the command's notifications.  Handling
`reload_birdnet` with room on the channel for its notifications
(two when the reload succeeds, one when it fails) always runs to the end; `BuildRangeFilter` is called (once) exactly when `ReloadModel` returned
no error; a failed reload gives one notification, of type error, and no other
collaborator call; a successful reload gives the success notification of the
reload followed by one notification of the rebuild, of type success when
`BuildRangeFilter` returned no error and of type error otherwise. -/
theorem reload_birdnet_outcomes (c : Collab) (w : World)
    (hroom : (if c.reloadModel = none then 2 else 1) ≤ w.free) :
    ∃ es w1, handleSignal c w "reload_birdnet" = .ok w1 ∧ w1.events = w.events ++ es ∧
      es.count .reloadModel = 1 ∧
      (Event.buildRangeFilter ∈ es ↔ c.reloadModel = none) ∧
      es.count .buildRangeFilter = (if c.reloadModel = none then 1 else 0) ∧
      (c.reloadModel ≠ none →
        (∃ n, notifications es = [n] ∧ n.Type_ = "error") ∧
        es.filter isCollaboratorCall = [.reloadModel]) ∧
      (c.reloadModel = none →
        ∃ n, notifications es =
            [{ Message := "BirdNET model reloaded successfully", Type_ := "success" }, n] ∧
          n.Type_ = (if c.buildRangeFilter = none then "success" else "error")) := by
  have hsig : handleSignal c w "reload_birdnet" = reloadBirdnetCase c w := by
    simp [handleSignal]
  rcases hr : c.reloadModel with _ | err
  · simp only [hr, if_true] at hroom
    rcases hb : c.buildRangeFilter with _ | berr
    · refine ⟨[.reloadModel, .log "\x1b[32m✅ BirdNET model reloaded successfully\x1b[0m",
          .notify { Message := "BirdNET model reloaded successfully", Type_ := "success" },
          .buildRangeFilter, .log "\x1b[32m✅ Range filter rebuilt successfully\x1b[0m",
          .notify { Message := "Range filter rebuilt successfully", Type_ := "success" }],
        _, hsig.trans (reloadBirdnetCase_nil_nil c w hr hb hroom), ?_, ?_⟩
      · simp [deliver_events, record_events]
      · simp [notifications, List.count_cons]
    · refine ⟨[.reloadModel, .log "\x1b[32m✅ BirdNET model reloaded successfully\x1b[0m",
          .notify { Message := "BirdNET model reloaded successfully", Type_ := "success" },
          .buildRangeFilter,
          .log ("\x1b[31m❌ Error rebuilding range filter after model reload: " ++ berr ++ "\x1b[0m"),
          .notify { Message := "Failed to rebuild range filter: " ++ berr, Type_ := "error" }],
        _, hsig.trans (reloadBirdnetCase_nil_err c w berr hr hb hroom), ?_, ?_⟩
      · simp [deliver_events, record_events]
      · simp [notifications, List.count_cons]
  · simp only [hr, reduceCtorEq, if_false] at hroom
    refine ⟨[.reloadModel, .log ("\x1b[31m❌ Error reloading BirdNET model: " ++ err ++ "\x1b[0m"),
        .notify { Message := "Failed to reload BirdNET model: " ++ err, Type_ := "error" }],
      _, hsig.trans (reloadBirdnetCase_err c w err hr (by omega)), ?_, ?_⟩
    · simp [deliver_events, record_events]
    · simp [notifications, List.count_cons, isCollaboratorCall]

/-- Witness for C1 (amended): an empty channel of capacity 100, reload succeeds,
rebuild fails. -/
theorem reload_birdnet_outcomes_witness :
    ∃ es w1, handleSignal ⟨none, some "no labels", [], ""⟩ ⟨[], [], 100, 0, 1⟩ "reload_birdnet" = .ok w1 ∧
      w1.events = ([] : List Event) ++ es ∧
      es.count .reloadModel = 1 ∧
      (Event.buildRangeFilter ∈ es ↔ (none : GoError) = none) ∧
      es.count .buildRangeFilter = (if (none : GoError) = none then 1 else 0) ∧
      ((none : GoError) ≠ none →
        (∃ n, notifications es = [n] ∧ n.Type_ = "error") ∧
        es.filter isCollaboratorCall = [.reloadModel]) ∧
      ((none : GoError) = none →
        ∃ n, notifications es =
            [{ Message := "BirdNET model reloaded successfully", Type_ := "success" }, n] ∧
          n.Type_ = (if (some "no labels" : GoError) = none then "success" else "error")) :=
  reload_birdnet_outcomes ⟨none, some "no labels", [], ""⟩ ⟨[], [], 100, 0, 1⟩ (by decide)

/-- C1 fails as stated: with 100 notifications buffered in a channel of capacity
100 and no consumer, `ReloadModel` returns no error and yet `BuildRangeFilter`
is not called and no notification is emitted; the handler is parked at the
send of the reload's success notification, which comes before the rebuild. -/
theorem reload_parked_before_rebuild :
    handleSignal ⟨none, none, [], ""⟩
        ⟨[], List.replicate 100 ⟨"Range filter rebuilt successfully", "success"⟩, 100, 0, 1⟩
        "reload_birdnet" =
      .blocked ⟨[.reloadModel, .log "\x1b[32m✅ BirdNET model reloaded successfully\x1b[0m"],
        List.replicate 100 ⟨"Range filter rebuilt successfully", "success"⟩, 100, 0, 1⟩ ∧
    Event.buildRangeFilter ∉
      [Event.reloadModel, .log "\x1b[32m✅ BirdNET model reloaded successfully\x1b[0m"] ∧
    notifications
      [Event.reloadModel, .log "\x1b[32m✅ BirdNET model reloaded successfully\x1b[0m"] = [] := by
  refine ⟨?_, by simp, rfl⟩
  simp [handleSignal, reloadBirdnetCase, send, World.canSend, World.record, Step.bind]

/-- The source list of `reconfigure_rtsp_sources` in closed form: the configured
URLs, then `"malgo"` when the local audio source is set. -/
theorem reconfigureSources_eq (urls : List String) (src : String) :
    reconfigureSources urls src = urls ++ (if src = "" then [] else ["malgo"]) := by
  unfold reconfigureSources
  cases urls <;> by_cases h : src = "" <;> simp [h]

/-- C2, as the code has it: the send is a plain channel send, so the claim holds
when the channel can take one notification.  Handling
`reconfigure_rtsp_sources` with room for one notification runs
to the end and does, in this order: `UpdateMonitors` with the configured RTSP
URLs followed by `"malgo"` exactly when the local audio source is non-empty,
`ReconfigureRTSPStreams`, and one notification of type success. -/
theorem reconfigure_rtsp_sources_sequence (c : Collab) (w : World) (hroom : 1 ≤ w.free) :
    ∃ w1 l1 l2 n, handleSignal c w "reconfigure_rtsp_sources" = .ok w1 ∧
      w1.events = w.events ++
        [.log l1,
         .updateMonitors (c.rtspURLs ++ (if c.audioSource = "" then [] else ["malgo"])),
         .reconfigureRTSPStreams, .log l2, .notify n] ∧
      n.Type_ = "success" ∧
      ("malgo" ∈ reconfigureSources c.rtspURLs c.audioSource ↔
        (c.audioSource ≠ "" ∨ "malgo" ∈ c.rtspURLs)) := by
  have hsig : handleSignal c w "reconfigure_rtsp_sources" = reconfigureRTSPSourcesCase c w := by
    simp [handleSignal]
  refine ⟨_, "\x1b[32m🔄 Reconfiguring RTSP sources...\x1b[0m",
    "\x1b[32m✅ RTSP sources reconfigured successfully\x1b[0m",
    { Message := "Audio capture reconfigured successfully", Type_ := "success" },
    hsig.trans (reconfigureRTSPSourcesCase_eq c w (by omega)), ?_, rfl, ?_⟩
  · simp [deliver_events, record_events, reconfigureSources_eq]
  · rw [reconfigureSources_eq]
    by_cases h : c.audioSource = "" <;> simp [h]

/-- Witness for C2 (amended): two RTSP URLs and a local sound card. -/
theorem reconfigure_rtsp_sources_sequence_witness :
    ∃ w1 l1 l2 n,
      handleSignal ⟨none, none, ["rtsp://a", "rtsp://b"], "sysdefault"⟩ ⟨[], [], 100, 0, 1⟩
        "reconfigure_rtsp_sources" = .ok w1 ∧
      w1.events = [] ++
        [.log l1, .updateMonitors (["rtsp://a", "rtsp://b"] ++
            (if ("sysdefault" : String) = "" then [] else ["malgo"])),
         .reconfigureRTSPStreams, .log l2, .notify n] ∧
      n.Type_ = "success" ∧
      ("malgo" ∈ reconfigureSources ["rtsp://a", "rtsp://b"] "sysdefault" ↔
        (("sysdefault" : String) ≠ "" ∨ "malgo" ∈ ["rtsp://a", "rtsp://b"])) :=
  reconfigure_rtsp_sources_sequence ⟨none, none, ["rtsp://a", "rtsp://b"], "sysdefault"⟩
    ⟨[], [], 100, 0, 1⟩ (by decide)

/-- C2 fails as stated: with 100 notifications buffered in a channel of capacity
100 and no consumer, `reconfigure_rtsp_sources` calls `UpdateMonitors` and
`ReconfigureRTSPStreams` and then emits no notification; the handler is parked
at its send. -/
theorem reconfigure_parked_without_notification :
    handleSignal ⟨none, none, ["rtsp://a"], ""⟩
        ⟨[], List.replicate 100 ⟨"Range filter rebuilt successfully", "success"⟩, 100, 0, 1⟩
        "reconfigure_rtsp_sources" =
      .blocked ⟨[.log "\x1b[32m🔄 Reconfiguring RTSP sources...\x1b[0m",
          .updateMonitors ["rtsp://a"], .reconfigureRTSPStreams,
          .log "\x1b[32m✅ RTSP sources reconfigured successfully\x1b[0m"],
        List.replicate 100 ⟨"Range filter rebuilt successfully", "success"⟩, 100, 0, 1⟩ ∧
    notifications
      [Event.log "\x1b[32m🔄 Reconfiguring RTSP sources...\x1b[0m",
        .updateMonitors ["rtsp://a"], .reconfigureRTSPStreams,
        .log "\x1b[32m✅ RTSP sources reconfigured successfully\x1b[0m"] = [] := by
  refine ⟨?_, rfl⟩
  simp [handleSignal, reconfigureRTSPSourcesCase, reconfigureSources, send, World.canSend,
    World.record]

/-- C3: a command other than the three known ones (the empty string included)
only logs: no collaborator is called, no notification is sent, the channel and
the WaitGroup are untouched, and the goroutine goes on to its next `select`,
whatever the state of the notification channel. -/
theorem unknown_command_discarded (c : Collab) (w : World) (s : String)
    (h1 : s ≠ "rebuild_range_filter") (h2 : s ≠ "reload_birdnet")
    (h3 : s ≠ "reconfigure_rtsp_sources") :
    ∃ w1 l, controlMonitorStep c w (.signal s) = .continue w1 ∧
      w1.events = w.events ++ [.log l] ∧
      ([Event.log l].filter isCollaboratorCall = [] ∧ notifications [.log l] = []) ∧
      w1.notificationChan = w.notificationChan ∧ w1.wg = w.wg ∧
      ∀ rest, controlMonitor w ((.signal s, c) :: rest) = controlMonitor w1 rest := by
  have hs : handleSignal c w s =
      .ok (w.record (.log ("Received unknown control signal: " ++ s))) := by
    simp [handleSignal, h1, h2, h3]
  have hstep : controlMonitorStep c w (.signal s) =
      .continue (w.record (.log ("Received unknown control signal: " ++ s))) := by
    simp [controlMonitorStep, hs]
  refine ⟨_, _, hstep, rfl, ⟨rfl, rfl⟩, rfl, rfl, ?_⟩
  intro rest
  simp [controlMonitor, hstep]

/-- Witness for C3: the empty command on a full channel without consumer. -/
theorem unknown_command_discarded_witness :
    ∃ w1 l, controlMonitorStep ⟨none, none, [], ""⟩ ⟨[], [], 0, 0, 1⟩ (.signal "") = .continue w1 ∧
      w1.events = [] ++ [.log l] ∧
      ([Event.log l].filter isCollaboratorCall = [] ∧ notifications [.log l] = []) ∧
      w1.notificationChan = [] ∧ w1.wg = 1 ∧
      ∀ rest, controlMonitor ⟨[], [], 0, 0, 1⟩ ((.signal "", ⟨none, none, [], ""⟩) :: rest) =
        controlMonitor w1 rest :=
  unknown_command_discarded ⟨none, none, [], ""⟩ ⟨[], [], 0, 0, 1⟩ ""
    (by decide) (by decide) (by decide)

/-- C4, as the code has it: the send is a plain channel send, so the claim holds
when the channel can take one notification.  Handling
`rebuild_range_filter` with room for one notification calls
`BuildRangeFilter` once, sends one notification whose type is success exactly
when `BuildRangeFilter` returned no error and error otherwise, and in both
cases the goroutine goes on to its next `select`. -/
theorem rebuild_range_filter_outcomes (c : Collab) (w : World) (hroom : 1 ≤ w.free) :
    ∃ es w1 n, controlMonitorStep c w (.signal "rebuild_range_filter") = .continue w1 ∧
      w1.events = w.events ++ es ∧
      es.count .buildRangeFilter = 1 ∧ es.filter isCollaboratorCall = [.buildRangeFilter] ∧
      notifications es = [n] ∧
      (n.Type_ = "success" ↔ c.buildRangeFilter = none) ∧
      (n.Type_ = "error" ↔ c.buildRangeFilter ≠ none) ∧
      ∀ rest, controlMonitor w ((.signal "rebuild_range_filter", c) :: rest) =
        controlMonitor w1 rest := by
  have hsig : handleSignal c w "rebuild_range_filter" = rebuildRangeFilterCase c w := by
    simp [handleSignal]
  rcases hb : c.buildRangeFilter with _ | err
  · have hok := hsig.trans (rebuildRangeFilterCase_nil c w hb (by omega))
    refine ⟨[.buildRangeFilter, .log "\x1b[32m🔄 Range filter rebuilt successfully\x1b[0m",
        .notify { Message := "Range filter rebuilt successfully", Type_ := "success" }],
      _, _, controlMonitorStep_of_ok _ _ _ _ hok, ?_, ?_, ?_, rfl, ?_, ?_,
      controlMonitor_cons_of_ok _ _ _ _ hok⟩
    · simp [deliver_events, record_events]
    · simp [List.count_cons]
    · simp [isCollaboratorCall]
    · simp
    · simp
  · have hok := hsig.trans (rebuildRangeFilterCase_err c w err hb (by omega))
    refine ⟨[.buildRangeFilter,
        .log ("\x1b[31m❌ Error handling range filter rebuild: " ++ err ++ "\x1b[0m"),
        .notify { Message := "Failed to rebuild range filter: " ++ err, Type_ := "error" }],
      _, _, controlMonitorStep_of_ok _ _ _ _ hok, ?_, ?_, ?_, rfl, ?_, ?_,
      controlMonitor_cons_of_ok _ _ _ _ hok⟩
    · simp [deliver_events, record_events]
    · simp [List.count_cons]
    · simp [isCollaboratorCall]
    · simp
    · simp

/-- Witness for C4 (amended): the rebuild fails, the channel has one free slot. -/
theorem rebuild_range_filter_outcomes_witness :
    ∃ es w1 n, controlMonitorStep ⟨none, some "boom", [], ""⟩ ⟨[], [], 1, 0, 1⟩
        (.signal "rebuild_range_filter") = .continue w1 ∧
      w1.events = [] ++ es ∧
      es.count .buildRangeFilter = 1 ∧ es.filter isCollaboratorCall = [.buildRangeFilter] ∧
      notifications es = [n] ∧
      (n.Type_ = "success" ↔ (some "boom" : GoError) = none) ∧
      (n.Type_ = "error" ↔ (some "boom" : GoError) ≠ none) ∧
      ∀ rest, controlMonitor ⟨[], [], 1, 0, 1⟩
          ((.signal "rebuild_range_filter", ⟨none, some "boom", [], ""⟩) :: rest) =
        controlMonitor w1 rest :=
  rebuild_range_filter_outcomes ⟨none, some "boom", [], ""⟩ ⟨[], [], 1, 0, 1⟩ (by decide)

/-- C4 fails as stated: with 100 notifications buffered in a channel of capacity
100 and no consumer, a failing `BuildRangeFilter` is followed by no
notification, and the goroutine does not go on to its next `select`; it is
parked at the send of the error notification. -/
theorem rebuild_parked_without_notification :
    controlMonitorStep ⟨none, some "boom", [], ""⟩
        ⟨[], List.replicate 100 ⟨"Range filter rebuilt successfully", "success"⟩, 100, 0, 1⟩
        (.signal "rebuild_range_filter") =
      .blocked ⟨[.buildRangeFilter,
          .log "\x1b[31m❌ Error handling range filter rebuild: boom\x1b[0m"],
        List.replicate 100 ⟨"Range filter rebuilt successfully", "success"⟩, 100, 0, 1⟩ ∧
    notifications
      [Event.buildRangeFilter,
        .log "\x1b[31m❌ Error handling range filter rebuild: boom\x1b[0m"] = [] := by
  refine ⟨?_, rfl⟩
  simp [controlMonitorStep, handleSignal, rebuildRangeFilterCase, send, World.canSend,
    World.record]

/-- With no room on the notification channel every known command parks the
handler at its first send, before anything is put on the channel. -/
theorem handleSignal_blocked (c : Collab) (w : World) (s : String)
    (hfree : w.free = 0) (hs : s ∈ controlCommands) :
    ∃ w1, handleSignal c w s = .blocked w1 ∧ w1.notificationChan = w.notificationChan ∧
      notifications w1.events = notifications w.events := by
  have key : ∀ (st : Step) (w0 : World), st = .blocked w0 →
      w0.notificationChan = w.notificationChan →
      notifications w0.events = notifications w.events →
      ∃ w1, st = .blocked w1 ∧ w1.notificationChan = w.notificationChan ∧
        notifications w1.events = notifications w.events :=
    fun _ w0 h1 h2 h3 => ⟨w0, h1, h2, h3⟩
  simp only [controlCommands, List.mem_cons, List.mem_singleton, List.not_mem_nil, or_false] at hs
  rcases hs with rfl | rfl | rfl
  · have hsig : handleSignal c w "rebuild_range_filter" = rebuildRangeFilterCase c w := by
      simp [handleSignal]
    rw [hsig]
    rcases hb : c.buildRangeFilter with _ | err
    · simp only [rebuildRangeFilterCase, hb]
      exact key _ _ (send_of_not_free _ _ (by simpa [record_free] using hfree)) rfl
        (by simp [record_events, notifications_append, notifications])
    · simp only [rebuildRangeFilterCase, hb]
      exact key _ _ (send_of_not_free _ _ (by simpa [record_free] using hfree)) rfl
        (by simp [record_events, notifications_append, notifications])
  · have hsig : handleSignal c w "reload_birdnet" = reloadBirdnetCase c w := by
      simp [handleSignal]
    rw [hsig]
    rcases hr : c.reloadModel with _ | err
    · simp only [reloadBirdnetCase, hr]
      rw [send_of_not_free _ _ (by simpa [record_free] using hfree)]
      exact key _ _ rfl rfl (by simp [record_events, notifications_append, notifications])
    · simp only [reloadBirdnetCase, hr]
      exact key _ _ (send_of_not_free _ _ (by simpa [record_free] using hfree)) rfl
        (by simp [record_events, notifications_append, notifications])
  · have hsig : handleSignal c w "reconfigure_rtsp_sources" = reconfigureRTSPSourcesCase c w := by
      simp [handleSignal]
    rw [hsig]
    simp only [reconfigureRTSPSourcesCase]
    exact key _ _ (send_of_not_free _ _ (by simpa [record_free] using hfree)) rfl
      (by simp [record_events, notifications_append, notifications])

/-- With room for two notifications every command is handled to the end. -/
theorem handleSignal_ok_of_room (c : Collab) (w : World) (s : String) (hroom : 2 ≤ w.free) :
    ∃ w1, handleSignal c w s = .ok w1 := by
  unfold handleSignal
  split
  · rcases hb : c.buildRangeFilter with _ | err
    · exact ⟨_, rebuildRangeFilterCase_nil c w hb (by omega)⟩
    · exact ⟨_, rebuildRangeFilterCase_err c w err hb (by omega)⟩
  · split
    · rcases hr : c.reloadModel with _ | err
      · rcases hb : c.buildRangeFilter with _ | berr
        · exact ⟨_, reloadBirdnetCase_nil_nil c w hr hb hroom⟩
        · exact ⟨_, reloadBirdnetCase_nil_err c w berr hr hb hroom⟩
      · exact ⟨_, reloadBirdnetCase_err c w err hr (by omega)⟩
    · split
      · exact ⟨_, reconfigureRTSPSourcesCase_eq c w (by omega)⟩
      · exact ⟨_, rfl⟩

/-- C5, as the code has it: the handler sends with a plain channel send.  It
handles a command to the end when the channel can take two more notifications
(free slots plus receives by the consumer), or when the command is unknown;
on a channel with no room and no consumer each known command parks the handler
at its first send, and nothing is dropped from the channel. -/
theorem handler_finishes_given_room (c : Collab) (w : World) (s : String) :
    (2 ≤ w.free → ∃ w1, handleSignal c w s = .ok w1) ∧
    (s ∉ controlCommands → ∃ w1, handleSignal c w s = .ok w1) ∧
    (w.free = 0 → s ∈ controlCommands →
      ∃ w1, handleSignal c w s = .blocked w1 ∧ w1.notificationChan = w.notificationChan ∧
        notifications w1.events = notifications w.events) := by
  refine ⟨handleSignal_ok_of_room c w s, ?_, handleSignal_blocked c w s⟩
  intro hs
  simp only [controlCommands, List.mem_cons, List.mem_singleton, List.not_mem_nil, or_false,
    not_or] at hs
  have h : handleSignal c w s =
      .ok (w.record (.log ("Received unknown control signal: " ++ s))) := by
    simp [handleSignal, hs.1, hs.2.1, hs.2.2]
  exact ⟨_, h⟩

/-- Witness for C5 (amended): a successful reload on an empty channel of capacity 100. -/
theorem handler_finishes_given_room_witness :
    ∃ w1, handleSignal ⟨none, none, [], ""⟩ ⟨[], [], 100, 0, 1⟩ "reload_birdnet" = .ok w1 :=
  (handler_finishes_given_room ⟨none, none, [], ""⟩ ⟨[], [], 100, 0, 1⟩ "reload_birdnet").1
    (by decide)

/-- C5 fails as stated: with 100 notifications buffered in a channel of capacity
100 and no consumer, `rebuild_range_filter` does not finish; the handler is
parked at its send and the 100 buffered notifications are all still there. -/
theorem handler_blocks_on_full_queue :
    (¬ ∃ w1, handleSignal ⟨none, none, [], ""⟩
        ⟨[], List.replicate 100 ⟨"Range filter rebuilt successfully", "success"⟩, 100, 0, 1⟩
        "rebuild_range_filter" = .ok w1) ∧
    handleSignal ⟨none, none, [], ""⟩
        ⟨[], List.replicate 100 ⟨"Range filter rebuilt successfully", "success"⟩, 100, 0, 1⟩
        "rebuild_range_filter" =
      .blocked ⟨[.buildRangeFilter, .log "\x1b[32m🔄 Range filter rebuilt successfully\x1b[0m"],
        List.replicate 100 ⟨"Range filter rebuilt successfully", "success"⟩, 100, 0, 1⟩ := by
  have h : handleSignal ⟨none, none, [], ""⟩
        ⟨[], List.replicate 100 ⟨"Range filter rebuilt successfully", "success"⟩, 100, 0, 1⟩
        "rebuild_range_filter" =
      .blocked ⟨[.buildRangeFilter, .log "\x1b[32m🔄 Range filter rebuilt successfully\x1b[0m"],
        List.replicate 100 ⟨"Range filter rebuilt successfully", "success"⟩, 100, 0, 1⟩ := by
    simp [handleSignal, rebuildRangeFilterCase, send, World.canSend, World.record]
  refine ⟨?_, h⟩
  rintro ⟨w1, hw⟩
  rw [h] at hw
  cases hw

/-! ## The main loop and restart requests -/

theorem restartArm_events (w : World) :
    (restartArm w).events = w.events ++ [.log "🔄 Restarting audio capture", .spawnCaptureAudio] := by
  simp [restartArm, startAudioCapture, record_events]

theorem restartArm_wg (w : World) : (restartArm w).wg = w.wg := rfl

/-- Without quit the main loop serves every pending restart request and then
waits in its `select`. -/
theorem mainLoop_no_quit (exits k : Nat) (choices : List Bool) (w : World) :
    ∃ w1, mainLoop false exits k choices w = .waiting w1 ∧
      w1.events.count .spawnCaptureAudio = w.events.count .spawnCaptureAudio + k ∧
      w1.wg = w.wg := by
  induction k generalizing w with
  | zero => exact ⟨w, by simp [mainLoop], by simp, rfl⟩
  | succ k ih =>
    obtain ⟨w1, h1, h2, h3⟩ := ih (restartArm w)
    refine ⟨w1, ?_, ?_, ?_⟩
    · simpa [mainLoop] using h1
    · rw [h2, restartArm_events]
      simp [List.count_append, List.count_cons]
      omega
    · rw [h3, restartArm_wg]

/-- C6, as the code has it: with `k` restart requests pending and no quit, the
main loop starts audio capture once for each of them, `k` times in all, and
then waits; the requests are not collapsed into one. -/
theorem restart_once_per_request (exits k : Nat) (choices : List Bool) (w : World) :
    ∃ w1, mainLoop false exits k choices w = .waiting w1 ∧
      w1.events.count .spawnCaptureAudio = w.events.count .spawnCaptureAudio + k :=
  let ⟨w1, h1, h2, _⟩ := mainLoop_no_quit exits k choices w
  ⟨w1, h1, h2⟩

/-- C6 fails as stated: with two restart requests pending and no quit, audio
capture is started twice, not once. -/
theorem two_pending_restarts_two_captures :
    (mainLoop false 0 2 [] ⟨[], [], 100, 0, 0⟩).world.events.count .spawnCaptureAudio = 2 ∧
    (mainLoop false 0 2 [] ⟨[], [], 100, 0, 0⟩).world.events.count .spawnCaptureAudio ≠ 1 := by
  decide

/-! ## The retention scheduler -/

/-- What one tick under a constant policy does to the history. -/
theorem cleanupTick_constant_policy (p : String) (ageErr usageErr : GoError) (w : World) :
    ∃ es, (cleanupTick ⟨p, p, ageErr, usageErr⟩ w).events = w.events ++ es ∧
      (cleanupTick ⟨p, p, ageErr, usageErr⟩ w).wg = w.wg ∧
      es.count .ageBasedCleanup = (if p = "age" then 1 else 0) ∧
      es.count .usageBasedCleanup = (if p = "usage" then 1 else 0) := by
  by_cases ha : p = "age"
  · subst ha
    rcases ageErr with _ | e
    · exact ⟨[.ageBasedCleanup], by simp [cleanupTick, record_events], rfl, by simp, by simp⟩
    · exact ⟨[.ageBasedCleanup, .log ("Error cleaning up clips:  " ++ e)],
        by simp [cleanupTick, record_events], rfl, by simp, by simp⟩
  · by_cases hu : p = "usage"
    · subst hu
      rcases usageErr with _ | e
      · exact ⟨[.usageBasedCleanup], by simp [cleanupTick, record_events], rfl, by simp, by simp⟩
      · exact ⟨[.usageBasedCleanup, .log ("Error cleaning up clips:  " ++ e)],
          by simp [cleanupTick, record_events], rfl, by simp, by simp⟩
    · exact ⟨[], by simp [cleanupTick, ha, hu], by simp [cleanupTick, ha, hu],
        by simp [ha], by simp [hu]⟩

/-- C7: during a tick in which the configuration holds `p`, the scheduler calls
`AgeBasedCleanup` once and `UsageBasedCleanup` not at all when `p` is `"age"`,
`UsageBasedCleanup` once and `AgeBasedCleanup` not at all when `p` is `"usage"`,
and neither for any other `p`; whatever the cleanup returns the loop goes on to
the next `select`, and an iteration returns exactly when quit was received. -/
theorem retention_tick_dispatch (p : String) (ageErr usageErr : GoError) (w : World) :
    ∃ es w1, clipCleanupMonitorStep w (tickWith p ageErr usageErr) = .continue w1 ∧
      w1.events = w.events ++ es ∧ w1.wg = w.wg ∧
      es.count .ageBasedCleanup = (if p = "age" then 1 else 0) ∧
      es.count .usageBasedCleanup = (if p = "usage" then 1 else 0) ∧
      (∀ rest, clipCleanupLoop w (tickWith p ageErr usageErr :: rest) = clipCleanupLoop w1 rest) ∧
      (∀ sel, (∃ w2, clipCleanupMonitorStep w sel = .returned w2) ↔ sel = .quit) := by
  obtain ⟨es, h1, h2, h3, h4⟩ := cleanupTick_constant_policy p ageErr usageErr w
  refine ⟨es, cleanupTick ⟨p, p, ageErr, usageErr⟩ w, rfl, h1, h2, h3, h4, fun _ => rfl, ?_⟩
  intro sel
  cases sel <;> simp [clipCleanupMonitorStep]

/-- A schedule of ticks only never ends the cleanup loop. -/
theorem clipCleanupLoop_ticks (pre : List CleanupSelect) (hpre : ∀ sel ∈ pre, sel ≠ .quit)
    (w : World) :
    ∃ w1, clipCleanupLoop w pre = .continue w1 ∧
      ∀ rest, clipCleanupLoop w (pre ++ rest) = clipCleanupLoop w1 rest := by
  induction pre generalizing w with
  | nil => exact ⟨w, rfl, fun _ => rfl⟩
  | cons sel pre ih =>
    cases sel with
    | quit => exact absurd rfl (hpre .quit (List.mem_cons_self _ _))
    | tick t =>
      obtain ⟨w1, h1, h2⟩ := ih (fun x hx => hpre x (List.mem_cons_of_mem _ hx)) (cleanupTick t w)
      exact ⟨w1, by simpa [clipCleanupLoop, clipCleanupMonitorStep] using h1,
        fun rest => by simpa [clipCleanupLoop, clipCleanupMonitorStep] using h2 rest⟩

/-- C8, as the code has it: when the policy at startup is not `"none"`, the
cleanup goroutine runs, and after any number of earlier ticks a tick during
which the configuration holds `p1` performs the cleanup of `p1` (age cleanup
once for `"age"`, usage cleanup once for `"usage"`, none otherwise); when the
policy at startup is `"none"` no cleanup goroutine is started and no later tick
changes anything. -/
theorem retention_change_applies (p0 p1 : String) (ageErr usageErr : GoError) (w : World)
    (pre : List CleanupSelect) :
    (p0 ≠ "none" → (∀ sel ∈ pre, sel ≠ .quit) →
      ∃ es, (retentionScheduler p0 w (pre ++ [tickWith p1 ageErr usageErr])).events =
          (retentionScheduler p0 w pre).events ++ es ∧
        es.count .ageBasedCleanup = (if p1 = "age" then 1 else 0) ∧
        es.count .usageBasedCleanup = (if p1 = "usage" then 1 else 0)) ∧
    (p0 = "none" → ∀ sched, retentionScheduler p0 w sched = w) := by
  constructor
  · intro hp hpre
    obtain ⟨w1, h1, h2⟩ := clipCleanupLoop_ticks pre hpre
      ((startClipCleanupMonitor w).record (.log ("Clip retention policy: " ++ p0)))
    obtain ⟨es, h4, _, h5, h6⟩ := cleanupTick_constant_policy p1 ageErr usageErr w1
    refine ⟨es, ?_, h5, h6⟩
    simp only [retentionScheduler, hp, ne_eq, not_false_eq_true, if_true, clipCleanupMonitor,
      h1, h2, LoopResult.world]
    simp only [clipCleanupLoop, clipCleanupMonitorStep, tickWith, LoopResult.world, h4]
  · intro hp sched
    simp [retentionScheduler, hp]

/-- Witness for C8 (amended): started with `"age"`, one tick under `"age"`, then
the configuration is changed to `"usage"`. -/
theorem retention_change_applies_witness :
    ∃ es, (retentionScheduler "age" ⟨[], [], 100, 0, 0⟩
          ([tickWith "age" none none] ++ [tickWith "usage" none none])).events =
        (retentionScheduler "age" ⟨[], [], 100, 0, 0⟩ [tickWith "age" none none]).events ++ es ∧
      es.count .ageBasedCleanup = (if ("usage" : String) = "age" then 1 else 0) ∧
      es.count .usageBasedCleanup = (if ("usage" : String) = "usage" then 1 else 0) :=
  (retention_change_applies "age" "usage" none none ⟨[], [], 100, 0, 0⟩
    [tickWith "age" none none]).1 (by decide) (by decide)

/-- C8 fails as stated: started with `"none"` and then changed to `"age"`, the
next five-minute mark performs no age cleanup, because no cleanup goroutine was
started. -/
theorem no_cleanup_after_start_with_none :
    (retentionScheduler "none" ⟨[], [], 100, 0, 0⟩
      [tickWith "age" none none]).events.count .ageBasedCleanup = 0 ∧
    ¬ (retentionScheduler "none" ⟨[], [], 100, 0, 0⟩
      [tickWith "age" none none]).events.count .ageBasedCleanup = 1 := by
  decide

/-! ## Startup and shutdown of the supervisor -/

/-- C9: a failure of `initializeBirdNET`, or of the datastore `Open` once it is
reached, makes `RealtimeAnalysis` return that error; up to that point nothing
that starts a worker has happened (no buffer monitors, capture, cleanup,
weather, telemetry, control or signal goroutine, no HTTP server) and the
WaitGroup is untouched. -/
theorem startup_failures_fatal (st : Settings) (env : StartupEnv) (run : RunEnv) (w : World) :
    (∀ e, env.initializeBirdNET = some e →
      ∃ es w1, RealtimeAnalysis st env run w = .returned (some e) w1 ∧
        w1.events = w.events ++ es ∧ (∀ ev ∈ es, isWorkerStart ev = false) ∧ w1.wg = w.wg) ∧
    (∀ e, env.initializeBirdNET = none → env.hostInfoNil = false → env.datastoreOpen = some e →
      ∃ es w1, RealtimeAnalysis st env run w = .returned (some e) w1 ∧
        w1.events = w.events ++ es ∧ (∀ ev ∈ es, isWorkerStart ev = false) ∧ w1.wg = w.wg) := by
  constructor
  · intro e he
    refine ⟨[.initializeBirdNET], w.record .initializeBirdNET, ?_, rfl, ?_, rfl⟩
    · simp [RealtimeAnalysis, he]
    · simp [isWorkerStart]
  · intro e hi hn ho
    rcases hh : env.hostInfo with _ | herr
    · refine ⟨[.initializeBirdNET, .hostInfo, .log "System details",
          .log "Starting analyzer in realtime mode", .datastoreNew, .datastoreOpen],
        List.foldl World.record w [.initializeBirdNET, .hostInfo, .log "System details",
          .log "Starting analyzer in realtime mode", .datastoreNew, .datastoreOpen], ?_, ?_, ?_, ?_⟩
      · simp only [RealtimeAnalysis, hi, hn, ho, hh]
        rfl
      · simp [List.foldl, record_events]
      · simp [isWorkerStart]
      · rfl
    · refine ⟨[.initializeBirdNET, .hostInfo, .log ("❌ Error retrieving host info: " ++ herr),
          .log "System details",
          .log "Starting analyzer in realtime mode", .datastoreNew, .datastoreOpen],
        List.foldl World.record w [.initializeBirdNET, .hostInfo,
          .log ("❌ Error retrieving host info: " ++ herr), .log "System details",
          .log "Starting analyzer in realtime mode", .datastoreNew, .datastoreOpen], ?_, ?_, ?_, ?_⟩
      · simp only [RealtimeAnalysis, hi, hn, ho, hh]
        rfl
      · simp [List.foldl, record_events]
      · simp [isWorkerStart]
      · rfl

/-- Witness for C9: the interpreter fails to initialise in one run, the
database fails to open in another. -/
theorem startup_failures_fatal_witness :
    (∃ es w1, RealtimeAnalysis ⟨["rtsp://a"], "", true, true, "none", true⟩
          ⟨some "model not found", none, false, none, none, none, none, "age", none, none, none⟩
          ⟨0, false, [], 0⟩ ⟨[], [], 100, 0, 0⟩ = .returned (some "model not found") w1 ∧
        w1.events = [] ++ es ∧ (∀ ev ∈ es, isWorkerStart ev = false) ∧ w1.wg = 0) ∧
    (∃ es w1, RealtimeAnalysis ⟨["rtsp://a"], "", true, true, "none", true⟩
          ⟨none, none, false, some "disk full", none, none, none, "age", none, none, none⟩
          ⟨0, false, [], 0⟩ ⟨[], [], 100, 0, 0⟩ = .returned (some "disk full") w1 ∧
        w1.events = [] ++ es ∧ (∀ ev ∈ es, isWorkerStart ev = false) ∧ w1.wg = 0) :=
  ⟨(startup_failures_fatal ⟨["rtsp://a"], "", true, true, "none", true⟩
      ⟨some "model not found", none, false, none, none, none, none, "age", none, none, none⟩
      ⟨0, false, [], 0⟩ ⟨[], [], 100, 0, 0⟩).1 "model not found" rfl,
   (startup_failures_fatal ⟨["rtsp://a"], "", true, true, "none", true⟩
      ⟨none, none, false, some "disk full", none, none, none, "age", none, none, none⟩
      ⟨0, false, [], 0⟩ ⟨[], [], 100, 0, 0⟩).2 "disk full" rfl rfl rfl⟩

/-- The quit arm when the counter reaches zero: the four shutdown actions in order. -/
theorem shutdown_of_done (exits : Nat) (w : World) (h : w.wg ≤ (exits : Int)) :
    shutdown exits w = .returned none
      ((({ (w.record .closeControlChan).record .removeAllMonitors with wg := 0 }).record
        .wgWait).record .birdnetDelete) := by
  have h1 : ((w.record .closeControlChan).record .removeAllMonitors).wg ≤ (exits : Int) := h
  simp only [shutdown, h1, if_true]

/-- The quit arm while registered workers remain: parked in `wg.Wait()`. -/
theorem shutdown_of_running (exits : Nat) (w : World) (h : (exits : Int) < w.wg) :
    shutdown exits w = .blockedAtWait ((w.record .closeControlChan).record .removeAllMonitors) := by
  have h1 : ¬ ((w.record .closeControlChan).record .removeAllMonitors).wg ≤ (exits : Int) :=
    not_le.2 h
  simp only [shutdown, h1, if_false]

/-- The quit arm returns only `nil`, only with the counter at zero, and only
after its four actions. -/
theorem shutdown_returned (exits : Nat) (w w1 : World) (err : GoError)
    (h : shutdown exits w = .returned err w1) :
    err = none ∧ w1.wg = 0 ∧ ∃ pre, w1.events =
      pre ++ [.closeControlChan, .removeAllMonitors, .wgWait, .birdnetDelete] := by
  by_cases hw : w.wg ≤ (exits : Int)
  · rw [shutdown_of_done exits w hw] at h
    injection h with h1 h2
    subst h2
    exact ⟨h1.symm, rfl, w.events, by simp [record_events]⟩
  · rw [shutdown_of_running exits w (not_le.1 hw)] at h
    cases h

/-- The main loop returns only through its quit arm. -/
theorem mainLoop_returned (quitClosed : Bool) (exits k : Nat) (choices : List Bool)
    (w w1 : World) (err : GoError)
    (h : mainLoop quitClosed exits k choices w = .returned err w1) :
    err = none ∧ w1.wg = 0 ∧ ∃ pre, w1.events =
      pre ++ [.closeControlChan, .removeAllMonitors, .wgWait, .birdnetDelete] := by
  induction k generalizing w choices with
  | zero =>
    cases quitClosed
    · simp [mainLoop] at h
    · exact shutdown_returned exits w w1 err (by simpa [mainLoop] using h)
  | succ k ih =>
    cases quitClosed
    · exact ih choices (restartArm w) (by simpa [mainLoop] using h)
    · rcases choices with _ | ⟨b, cs⟩
      · exact shutdown_returned exits w w1 err (by simpa [mainLoop] using h)
      · cases b
        · exact ih cs (restartArm w) (by simpa [mainLoop] using h)
        · exact shutdown_returned exits w w1 err (by simpa [mainLoop] using h)

/-- After a successful startup `RealtimeAnalysis` returns `nil` only through the
quit arm of its main loop. -/
theorem startWorkers_returned_nil (st : Settings) (env : StartupEnv) (run : RunEnv)
    (sources : List String) (w w1 : World)
    (h : startWorkers st env run sources w = .returned none w1) :
    w1.wg = 0 ∧ ∃ pre, w1.events =
      pre ++ [.closeControlChan, .removeAllMonitors, .wgWait, .birdnetDelete] := by
  unfold startWorkers at h
  rcases hm : env.newMetrics with _ | e
  · simp only [hm] at h
    exact (mainLoop_returned _ _ _ _ _ _ _ h).2
  · simp [hm] at h

theorem prepareBuffers_returned_nil (st : Settings) (env : StartupEnv) (run : RunEnv)
    (w w1 : World) (h : prepareBuffers st env run w = .returned none w1) :
    w1.wg = 0 ∧ ∃ pre, w1.events =
      pre ++ [.closeControlChan, .removeAllMonitors, .wgWait, .birdnetDelete] := by
  unfold prepareBuffers at h
  by_cases hs : st.rtspURLs.length > 0 ∨ st.audioSource ≠ ""
  · simp only [hs, if_true] at h
    rcases ha : env.initAnalysisBuffers with _ | e
    · rcases hc : env.initCaptureBuffers with _ | e
      · simp only [ha, hc] at h
        exact startWorkers_returned_nil _ _ _ _ _ _ h
      · simp [ha, hc] at h
    · simp [ha] at h
  · simp only [hs, if_false] at h
    exact startWorkers_returned_nil _ _ _ _ _ _ h

theorem RealtimeAnalysis_returned_nil (st : Settings) (env : StartupEnv) (run : RunEnv)
    (w w1 : World) (h : RealtimeAnalysis st env run w = .returned none w1) :
    w1.wg = 0 ∧ ∃ pre l, w1.events =
      pre ++ [.closeControlChan, .removeAllMonitors, .wgWait, .birdnetDelete,
        .datastoreClose, .log l] := by
  unfold RealtimeAnalysis at h
  rcases hi : env.initializeBirdNET with _ | e
  · cases hn : env.hostInfoNil
    · rcases ho : env.datastoreOpen with _ | e
      · simp only [hi, hn, ho, Bool.false_eq_true, if_false] at h
        generalize hp : prepareBuffers st env run _ = o at h
        cases o with
        | returned err w2 =>
          simp only [withDeferredClose] at h
          injection h with h1 h2
          subst h1
          obtain ⟨hwg, pre, hev⟩ := prepareBuffers_returned_nil _ _ _ _ _ hp
          subst h2
          rcases hc : env.datastoreClose with _ | ce
          · exact ⟨hwg, pre, "Successfully closed database",
              by simp [closeDataStore, record_events, hev]⟩
          · exact ⟨hwg, pre, "Failed to close database: " ++ ce,
              by simp [closeDataStore, record_events, hev]⟩
        | panicked w2 => simp [withDeferredClose] at h
        | waiting w2 => simp [withDeferredClose] at h
        | blockedAtWait w2 => simp [withDeferredClose] at h
      · simp [hi, hn, ho] at h
    · simp [hi, hn] at h
  · simp [hi] at h

/-- C10: when the main loop observes quit it runs its quit arm, which does
`RemoveAllMonitors`, then the wait on the WaitGroup, then `Delete` of the
interpreter, and returns `nil`, provided the registered workers all call
`Done`; while a registered worker has not, the supervisor stays parked in
`wg.Wait()` with the interpreter not deleted; and whenever `RealtimeAnalysis`
returns `nil` the counter is zero and the history ends with that sequence
followed by the deferred close of the datastore. -/
theorem ordered_shutdown (exits : Nat) (choices : List Bool) (w : World) :
    mainLoop true exits 0 choices w = shutdown exits w ∧
    (w.wg ≤ (exits : Int) →
      ∃ w1, shutdown exits w = .returned none w1 ∧ w1.wg = 0 ∧
        w1.events = w.events ++
          [.closeControlChan, .removeAllMonitors, .wgWait, .birdnetDelete]) ∧
    ((exits : Int) < w.wg →
      ∃ w1, shutdown exits w = .blockedAtWait w1 ∧ w1.wg = w.wg ∧
        w1.events = w.events ++ [.closeControlChan, .removeAllMonitors]) ∧
    (∀ st env run w0 w1, RealtimeAnalysis st env run w0 = .returned none w1 →
      w1.wg = 0 ∧ ∃ pre l, w1.events =
        pre ++ [.closeControlChan, .removeAllMonitors, .wgWait, .birdnetDelete,
          .datastoreClose, .log l]) := by
  refine ⟨by simp [mainLoop], ?_, ?_, ?_⟩
  · intro h
    exact ⟨_, shutdown_of_done exits w h, rfl, by simp [record_events]⟩
  · intro h
    exact ⟨_, shutdown_of_running exits w h, rfl, by simp [record_events]⟩
  · intro st env run w0 w1 h
    exact RealtimeAnalysis_returned_nil st env run w0 w1 h

/-- Witness for C10: three registered workers; all three exit, and the
supervisor returns; only two exit, and it stays in the wait. -/
theorem ordered_shutdown_witness :
    (∃ w1, shutdown 3 ⟨[], [], 100, 0, 3⟩ = .returned none w1 ∧ w1.wg = 0 ∧
      w1.events = [] ++ [.closeControlChan, .removeAllMonitors, .wgWait, .birdnetDelete]) ∧
    (∃ w1, shutdown 2 ⟨[], [], 100, 0, 3⟩ = .blockedAtWait w1 ∧ w1.wg = 3 ∧
      w1.events = [] ++ [.closeControlChan, .removeAllMonitors]) :=
  ⟨(ordered_shutdown 3 [] ⟨[], [], 100, 0, 3⟩).2.1 (by decide),
   (ordered_shutdown 2 [] ⟨[], [], 100, 0, 3⟩).2.2.1 (by decide)⟩

/-! ## Registration of the workers on the WaitGroup -/

/-- C11, as the code has it: clip cleanup, weather polling (once its service is
created) and the control handler are registered on the WaitGroup before their
goroutine is spawned, so the counter seen at the spawn is one more than before,
and each of these goroutines decrements the counter when it ends; audio
capture, at start and at each restart, is spawned without the supervisor
touching the WaitGroup, which is handed to `CaptureAudio` to manage. -/
theorem workers_registered_before_spawn (env : StartupEnv) (w : World) :
    (execStmts startClipCleanupMonitorBody w = startClipCleanupMonitor w ∧
      countersAtSpawn startClipCleanupMonitorBody w = [(.spawnClipCleanupMonitor, w.wg + 1)] ∧
      clipCleanupMonitorStep w .quit = .returned { w with wg := w.wg - 1 }) ∧
    (execStmts (startWeatherPollingBody env) w = startWeatherPolling env w ∧
      (env.weatherNewService = none →
        countersAtSpawn (startWeatherPollingBody env) w = [(.spawnWeatherPolling, w.wg + 1)]) ∧
      weatherPollingWorker true w = .returned { w with wg := w.wg - 1 }) ∧
    (execStmts startControlMonitorBody w = startControlMonitor w ∧
      countersAtSpawn startControlMonitorBody w = [(.spawnControlMonitor, w.wg + 1)] ∧
      ∀ c, controlMonitorStep c w .quit = .returned { w with wg := w.wg - 1 }) ∧
    (execStmts startAudioCaptureBody w = startAudioCapture w ∧
      countersAtSpawn startAudioCaptureBody w = [(.spawnCaptureAudio, w.wg)] ∧
      (startAudioCapture w).wg = w.wg ∧ (restartArm w).wg = w.wg) := by
  refine ⟨⟨rfl, rfl, rfl⟩, ⟨?_, ?_, rfl⟩, ⟨rfl, rfl, fun _ => rfl⟩, ⟨rfl, rfl, rfl, rfl⟩⟩
  · rcases h : env.weatherNewService with _ | e <;>
      simp [startWeatherPollingBody, startWeatherPolling, h, execStmts, Stmt.exec, World.record]
  · intro h
    simp [startWeatherPollingBody, h, countersAtSpawn, Stmt.exec, World.record]

/-- Witness for C11 (amended): the weather service is created, two workers are
already registered. -/
theorem workers_registered_before_spawn_witness :
    countersAtSpawn
        (startWeatherPollingBody
          ⟨none, none, false, none, none, none, none, "age", none, none, none⟩)
        ⟨[], [], 100, 0, 2⟩ = [(.spawnWeatherPolling, 2 + 1)] :=
  (workers_registered_before_spawn
    ⟨none, none, false, none, none, none, none, "age", none, none, none⟩
    ⟨[], [], 100, 0, 2⟩).2.1.2.1 rfl

/-- C11 fails as stated: when audio capture is spawned the counter of the
WaitGroup is what it was before, here zero; `startAudioCapture` does not
increment it. -/
theorem capture_spawned_unregistered :
    countersAtSpawn startAudioCaptureBody ⟨[], [], 100, 0, 0⟩ = [(.spawnCaptureAudio, 0)] ∧
    (startAudioCapture ⟨[], [], 100, 0, 0⟩).wg = 0 ∧
    (startAudioCapture ⟨[], [], 100, 0, 0⟩).events = [.spawnCaptureAudio] ∧
    ¬ countersAtSpawn startAudioCaptureBody ⟨[], [], 100, 0, 0⟩ = [(.spawnCaptureAudio, 0 + 1)] := by
  decide

/-! ## The image-cache warmer -/

theorem Warmer.inv_start (entries : List WarmEntry) (init0 : List String) :
    Warmer.Inv entries init0 (Warmer.start entries init0) := by
  refine ⟨rfl, by simp [Warmer.start], rfl, rfl, by simp [Warmer.start], by simp [Warmer.start],
    ?_, ?_, by simp [Warmer.start]⟩
  · intro m hm
    exact Or.inr ⟨hm, by simp [Warmer.start]⟩
  · intro e he _
    exact Or.inl he

theorem Warmer.inv_loop (entries : List WarmEntry) (init0 : List String) (s : Warmer)
    (h : Warmer.Inv entries init0 s) : Warmer.Inv entries init0 (s.step .loop) := by
  obtain ⟨h1, h2, h3, h4, h5, h6, h7, h8, h9⟩ := h
  rcases hT : s.todo with _ | ⟨e, rest⟩
  · simp only [Warmer.step, hT]
    exact ⟨h1, h2, h3, h4, h5, h6, h7, h8, h9⟩
  · have hover : s.over = true → False := fun ho => by
      have := (h9 ho).1
      rw [hT] at this
      cases this
    cases hc : e.alreadyCached
    case true =>
      have hn : e.needsFetch = false := by simp [WarmEntry.needsFetch, hc]
      simp only [Warmer.step, hT, hc, ↓reduceIte]
      refine ⟨h1, h2, h3, h4, h5, ?_, h7, ?_, ?_⟩
      · intro x
        have := h6 x
        simpa [hT, List.filter_cons, hn] using this
      · intro e' he' hn'
        rcases h8 e' he' hn' with h | h
        · rw [hT] at h
          rcases List.mem_cons.1 h with rfl | h
          · rw [hn] at hn'
            cases hn'
          · exact Or.inl h
        · exact Or.inr h
      · intro ho
        exact (hover ho).elim
    case false =>
      have hn : e.needsFetch = true := by simp [WarmEntry.needsFetch, hc]
      simp only [Warmer.step, hT, hc, Bool.false_eq_true, ↓reduceIte]
      refine ⟨h1, h2, ?_, ?_, h5, ?_, ?_, ?_, ?_⟩
      · simp only [List.length_append, List.length_singleton]
        rw [h3]
        push_cast
        ring
      · simp only [List.length_append, List.length_singleton]
        omega
      · intro x
        have := h6 x
        simp only [hT, List.filter_cons, hn, if_true, List.map_cons, List.count_cons,
          List.count_append, List.count_nil] at this ⊢
        omega
      · intro m hm
        simp only [storeKey] at hm
        by_cases hmn : m = e.name
        · left
          exact ⟨e.fetch, by simp, by simp [WarmEntry.fetch, hmn]⟩
        · have hm' : m ∈ s.initializing := by
            split at hm
            · exact hm
            · rcases List.mem_append.1 hm with h | h
              · exact h
              · simp at h
                exact (hmn h).elim
          rcases h7 m hm' with ⟨f, hf, hfm⟩ | ⟨hi, hk⟩
          · left
            refine ⟨f, ?_, hfm⟩
            simp only [List.mem_append] at hf ⊢
            tauto
          · right
            exact ⟨hi, by simp [hmn, hk]⟩
      · intro e' he' hn'
        rcases h8 e' he' hn' with h | h
        · rw [hT] at h
          rcases List.mem_cons.1 h with rfl | h
          · exact Or.inr (by simp)
          · exact Or.inl h
        · exact Or.inr (by simp [h])
      · intro ho
        exact (hover ho).elim

theorem count_erase_add (l : List Fetch) (f x : Fetch) (h : f ∈ l) :
    (l.erase f).count x + (if x = f then 1 else 0) = l.count x := by
  by_cases hx : x = f
  · subst hx
    have := List.count_pos_iff.2 h
    simp only [List.count_erase_self, if_true]
    omega
  · simp [List.count_erase_of_ne hx, hx]

theorem count_snoc (l : List Fetch) (f x : Fetch) :
    (l ++ [f]).count x = l.count x + (if x = f then 1 else 0) := by
  by_cases hx : x = f
  · subst hx
    simp
  · have : f ≠ x := fun h => hx h.symm
    simp [List.count_cons, hx, this]

theorem length_erase_add (l : List Fetch) (f : Fetch) (h : f ∈ l) :
    (l.erase f).length + 1 = l.length := by
  have := List.length_pos_of_mem h
  rw [List.length_erase_of_mem h]
  omega

theorem mem_erase_or_eq (l : List Fetch) (f g : Fetch) (h : g ∈ l) : g ∈ l.erase f ∨ g = f := by
  by_cases hg : g = f
  · exact Or.inr hg
  · exact Or.inl ((List.mem_erase_of_ne hg).2 h)

theorem Warmer.inv_acquire (entries : List WarmEntry) (init0 : List String) (s : Warmer)
    (f : Fetch) (h : Warmer.Inv entries init0 s) :
    Warmer.Inv entries init0 (s.step (.acquire f)) := by
  obtain ⟨h1, h2, h3, h4, h5, h6, h7, h8, h9⟩ := h
  by_cases hc : f ∈ s.spawned ∧ s.sem < 5
  · have hl := length_erase_add s.spawned f hc.1
    simp only [Warmer.step, hc, and_self, if_true]
    refine ⟨?_, ?_, ?_, ?_, h5, ?_, ?_, h8, ?_⟩
    all_goals try dsimp only
    · simp only [List.length_append, List.length_singleton]
      omega
    · omega
    · simp only [List.length_append, List.length_singleton]
      omega
    · simp only [List.length_append, List.length_singleton]
      omega
    · intro x
      have := h6 x
      have := count_erase_add s.spawned f x hc.1
      rw [count_snoc]
      omega
    · intro m hm
      rcases h7 m hm with ⟨g, hg, hgm⟩ | hr
      · left
        refine ⟨g, ?_, hgm⟩
        simp only [List.mem_append, List.mem_singleton] at hg ⊢
        rcases hg with ((hg | hg) | hg) | hg
        · rcases mem_erase_or_eq _ f g hg with h | h <;> tauto
        · tauto
        · tauto
        · tauto
      · exact Or.inr hr
    · intro ho
      exact h9 ho
  · simp only [Warmer.step, hc, if_false]
    exact ⟨h1, h2, h3, h4, h5, h6, h7, h8, h9⟩

theorem Warmer.inv_getReturns (entries : List WarmEntry) (init0 : List String) (s : Warmer)
    (f : Fetch) (h : Warmer.Inv entries init0 s) :
    Warmer.Inv entries init0 (s.step (.getReturns f)) := by
  obtain ⟨h1, h2, h3, h4, h5, h6, h7, h8, h9⟩ := h
  by_cases hc : f ∈ s.fetching
  · have hl := length_erase_add s.fetching f hc
    simp only [Warmer.step, hc, if_true]
    refine ⟨?_, h2, ?_, ?_, ?_, ?_, ?_, h8, ?_⟩
    all_goals try dsimp only
    · simp only [List.length_append, List.length_singleton]
      omega
    · simp only [List.length_append, List.length_singleton]
      omega
    · simp only [List.length_append, List.length_singleton]
      omega
    · intro x
      have := h5 x
      rw [count_snoc, count_snoc]
      omega
    · intro x
      have := h6 x
      have := count_erase_add s.fetching f x hc
      rw [count_snoc]
      omega
    · intro m hm
      rcases h7 m hm with ⟨g, hg, hgm⟩ | hr
      · left
        refine ⟨g, ?_, hgm⟩
        simp only [List.mem_append, List.mem_singleton] at hg ⊢
        rcases hg with ((hg | hg) | hg) | hg
        · tauto
        · rcases mem_erase_or_eq _ f g hg with h | h <;> tauto
        · tauto
        · tauto
      · exact Or.inr hr
    · intro ho
      exact h9 ho
  · simp only [Warmer.step, hc, if_false]
    exact ⟨h1, h2, h3, h4, h5, h6, h7, h8, h9⟩

theorem Warmer.inv_release (entries : List WarmEntry) (init0 : List String) (s : Warmer)
    (f : Fetch) (h : Warmer.Inv entries init0 s) :
    Warmer.Inv entries init0 (s.step (.release f)) := by
  obtain ⟨h1, h2, h3, h4, h5, h6, h7, h8, h9⟩ := h
  by_cases hc : f ∈ s.fetched
  · have hl := length_erase_add s.fetched f hc
    simp only [Warmer.step, hc, if_true]
    refine ⟨?_, ?_, ?_, ?_, ?_, ?_, ?_, h8, ?_⟩
    all_goals try dsimp only
    · omega
    · omega
    · simp only [List.length_append, List.length_singleton]
      omega
    · simp only [List.length_append, List.length_singleton]
      omega
    · intro x
      have := h5 x
      have := count_erase_add s.fetched f x hc
      rw [count_snoc]
      omega
    · intro x
      have := h6 x
      have := count_erase_add s.fetched f x hc
      rw [count_snoc]
      omega
    · intro m hm
      rcases h7 m hm with ⟨g, hg, hgm⟩ | hr
      · left
        refine ⟨g, ?_, hgm⟩
        simp only [List.mem_append, List.mem_singleton] at hg ⊢
        rcases hg with ((hg | hg) | hg) | hg
        · tauto
        · tauto
        · rcases mem_erase_or_eq _ f g hg with h | h <;> tauto
        · tauto
      · exact Or.inr hr
    · intro ho
      exact h9 ho
  · simp only [Warmer.step, hc, if_false]
    exact ⟨h1, h2, h3, h4, h5, h6, h7, h8, h9⟩

theorem Warmer.inv_unmark (entries : List WarmEntry) (init0 : List String) (s : Warmer)
    (f : Fetch) (h : Warmer.Inv entries init0 s) :
    Warmer.Inv entries init0 (s.step (.unmark f)) := by
  obtain ⟨h1, h2, h3, h4, h5, h6, h7, h8, h9⟩ := h
  by_cases hc : f ∈ s.released
  · have hl := length_erase_add s.released f hc
    simp only [Warmer.step, hc, if_true]
    refine ⟨h1, h2, ?_, ?_, ?_, ?_, ?_, h8, ?_⟩
    all_goals try dsimp only
    · simp only [List.length_append, List.length_singleton]
      omega
    · simp only [List.length_append, List.length_singleton]
      omega
    · intro x
      have := h5 x
      have := count_erase_add s.released f x hc
      rw [count_snoc]
      omega
    · intro x
      have := h6 x
      have := count_erase_add s.released f x hc
      rw [count_snoc]
      omega
    · intro m hm
      simp only [deleteKey, List.mem_filter, decide_eq_true_eq] at hm
      rcases h7 m hm.1 with ⟨g, hg, hgm⟩ | hr
      · left
        refine ⟨g, ?_, hgm⟩
        have hgf : g ≠ f := fun hgf => hm.2 (by rw [← hgm, hgf])
        simp only [List.mem_append] at hg ⊢
        rcases hg with ((hg | hg) | hg) | hg
        · tauto
        · tauto
        · tauto
        · exact Or.inr ((List.mem_erase_of_ne hgf).2 hg)
      · exact Or.inr hr
    · intro ho
      exact h9 ho
  · simp only [Warmer.step, hc, if_false]
    exact ⟨h1, h2, h3, h4, h5, h6, h7, h8, h9⟩

theorem Warmer.inv_done (entries : List WarmEntry) (init0 : List String) (s : Warmer)
    (f : Fetch) (h : Warmer.Inv entries init0 s) :
    Warmer.Inv entries init0 (s.step (.done f)) := by
  obtain ⟨h1, h2, h3, h4, h5, h6, h7, h8, h9⟩ := h
  by_cases hc : f ∈ s.unmarked
  · have hl := length_erase_add s.unmarked f hc
    simp only [Warmer.step, hc, if_true]
    refine ⟨h1, h2, ?_, ?_, ?_, ?_, h7, h8, ?_⟩
    all_goals try dsimp only
    · omega
    · simp only [List.length_append, List.length_singleton]
      omega
    · intro x
      have := h5 x
      have := count_erase_add s.unmarked f x hc
      rw [count_snoc]
      omega
    · intro x
      have := h6 x
      have := count_erase_add s.unmarked f x hc
      rw [count_snoc]
      omega
    · intro ho
      have := h9 ho
      omega
  · simp only [Warmer.step, hc, if_false]
    exact ⟨h1, h2, h3, h4, h5, h6, h7, h8, h9⟩

theorem Warmer.inv_afterLoop (entries : List WarmEntry) (init0 : List String) (s : Warmer)
    (h : Warmer.Inv entries init0 s) :
    Warmer.Inv entries init0 (s.step .afterLoop) := by
  obtain ⟨h1, h2, h3, h4, h5, h6, h7, h8, h9⟩ := h
  simp only [Warmer.step]
  split
  · rename_i hc
    split
    · split
      · rename_i hw
        exact ⟨h1, h2, h3, h4, h5, h6, h7, h8, fun _ => ⟨hc.1, hw⟩⟩
      · exact ⟨h1, h2, h3, h4, h5, h6, h7, h8, h9⟩
    · rename_i hn
      refine ⟨h1, h2, h3, h4, h5, h6, h7, h8, fun _ => ⟨hc.1, ?_⟩⟩
      dsimp only
      omega
  · exact ⟨h1, h2, h3, h4, h5, h6, h7, h8, h9⟩

/-- Every move keeps the invariant of the warmer. -/
theorem Warmer.inv_step (entries : List WarmEntry) (init0 : List String) (s : Warmer)
    (a : WarmAction) (h : Warmer.Inv entries init0 s) : Warmer.Inv entries init0 (s.step a) := by
  cases a with
  | loop => exact Warmer.inv_loop entries init0 s h
  | afterLoop => exact Warmer.inv_afterLoop entries init0 s h
  | acquire f => exact Warmer.inv_acquire entries init0 s f h
  | getReturns f => exact Warmer.inv_getReturns entries init0 s f h
  | release f => exact Warmer.inv_release entries init0 s f h
  | unmark f => exact Warmer.inv_unmark entries init0 s f h
  | done f => exact Warmer.inv_done entries init0 s f h

/-- The invariant holds in every state a schedule reaches. -/
theorem Warmer.inv_run (entries : List WarmEntry) (init0 : List String) (sched : List WarmAction)
    (s : Warmer) (h : Warmer.Inv entries init0 s) :
    Warmer.Inv entries init0 (Warmer.run sched s) := by
  induction sched generalizing s with
  | nil => exact h
  | cons a rest ih => exact ih (s.step a) (Warmer.inv_step entries init0 s a h)

/-- What `entrySchedule` does from a state with no fetch goroutine under way. -/
theorem run_entrySchedule (e : WarmEntry) (rest : List WarmEntry) (s : Warmer)
    (hT : s.todo = e :: rest) (h1 : s.spawned = []) (h2 : s.fetching = []) (h3 : s.fetched = [])
    (h4 : s.released = []) (h5 : s.unmarked = []) (h6 : s.sem = 0) (tail : List WarmAction) :
    ∃ s1, Warmer.run (entrySchedule e ++ tail) s = Warmer.run tail s1 ∧ s1.todo = rest ∧
      s1.spawned = [] ∧ s1.fetching = [] ∧ s1.fetched = [] ∧ s1.released = [] ∧
      s1.unmarked = [] ∧ s1.sem = 0 ∧ s1.wg = s.wg ∧ s1.over = s.over := by
  cases hc : e.alreadyCached
  case true =>
    refine ⟨s.step .loop, ?_, ?_⟩
    · simp [entrySchedule, hc, Warmer.run]
    · simp [Warmer.step, hT, hc, h1, h2, h3, h4, h5, h6]
  case false =>
    refine ⟨((((((s.step .loop).step (.acquire e.fetch)).step (.getReturns e.fetch)).step
      (.release e.fetch)).step (.unmark e.fetch)).step (.done e.fetch)), ?_, ?_⟩
    · simp [entrySchedule, hc, Warmer.run]
    · simp [Warmer.step, hT, hc, h1, h2, h3, h4, h5, h6]

/-- The sequential schedule brings the batch to its end. -/
theorem run_sequentialSchedule (todo : List WarmEntry) (s : Warmer)
    (hT : s.todo = todo) (h1 : s.spawned = []) (h2 : s.fetching = []) (h3 : s.fetched = [])
    (h4 : s.released = []) (h5 : s.unmarked = []) (h6 : s.sem = 0) (h7 : s.wg = 0)
    (h8 : s.over = false) :
    (Warmer.run (sequentialSchedule todo) s).over = true := by
  induction todo generalizing s with
  | nil =>
    simp only [sequentialSchedule, Warmer.run, Warmer.step, hT, h8, and_self, if_true, h7]
    split <;> rfl
  | cons e rest ih =>
    obtain ⟨s1, hrun, g0, g1, g2, g3, g4, g5, g6, g7, g8⟩ :=
      run_entrySchedule e rest s hT h1 h2 h3 h4 h5 h6 (sequentialSchedule rest)
    simp only [sequentialSchedule, hrun]
    exact ih s1 g0 g1 g2 g3 g4 g5 g6 (g7.trans h7) (g8.trans h8)

/-- When the background goroutine is over no fetch goroutine is left. -/
theorem Warmer.Inv.idle_of_over {entries : List WarmEntry} {init0 : List String} {s : Warmer}
    (h : Warmer.Inv entries init0 s) (ho : s.over = true) :
    s.spawned = [] ∧ s.fetching = [] ∧ s.fetched = [] ∧ s.released = [] ∧ s.unmarked = [] := by
  have hw := (h.over_inv ho).2
  have := h.wg_eq
  rw [hw] at this
  refine ⟨?_, ?_, ?_, ?_, ?_⟩ <;> apply List.eq_nil_of_length_eq_zero <;> omega

theorem System.warmAll_world (sched : List WarmAction) (sys : System) :
    (System.warmAll sched sys).world = sys.world := by
  induction sched generalizing sys with
  | nil => rfl
  | cons a rest ih => exact ih (sys.warm a)

theorem System.warmAll_warmer (sched : List WarmAction) (w : World) (s : Warmer) :
    (System.warmAll sched ⟨w, some s⟩).warmer = some (Warmer.run sched s) := by
  induction sched generalizing s with
  | nil => rfl
  | cons a rest ih => exact ih (s.step a)

/-- What a schedule that ends the batch leaves behind, in terms of the loop's
own test. -/
theorem warmer_batch_result (entries : List WarmEntry) (init0 : List String)
    (sched : List WarmAction)
    (ho : (Warmer.run sched (Warmer.start entries init0)).over = true) :
    (Warmer.run sched (Warmer.start entries init0)).gets.Perm
        ((entries.filter WarmEntry.needsFetch).map WarmEntry.fetch) ∧
      (∀ e ∈ entries, e.needsFetch = true →
        e.name ∉ (Warmer.run sched (Warmer.start entries init0)).initializing) ∧
      ∀ n ∈ (Warmer.run sched (Warmer.start entries init0)).marked,
        n ∉ (Warmer.run sched (Warmer.start entries init0)).initializing := by
  have hinv := Warmer.inv_run entries init0 sched _ (Warmer.inv_start entries init0)
  obtain ⟨e1, e2, e3, e4, e5⟩ := hinv.idle_of_over ho
  have hT := (hinv.over_inv ho).1
  refine ⟨?_, ?_, ?_⟩
  · rw [List.perm_iff_count]
    intro x
    have hg := hinv.gets_count x
    have ha := hinv.all_count x
    simp only [e1, e2, e3, e4, e5, hT, List.count_nil, List.filter_nil, List.map_nil] at hg ha
    omega
  · intro e he hn hmem
    rcases hinv.init_inv e.name hmem with ⟨f, hf, _⟩ | ⟨_, hk⟩
    · simp [e1, e2, e3, e4] at hf
    · rcases hinv.marked_inv e he hn with h | h
      · rw [hT] at h
        cases h
      · exact hk h
  · intro n hn hmem
    rcases hinv.init_inv n hmem with ⟨f, hf, _⟩ | ⟨_, hk⟩
    · simp [e1, e2, e3, e4] at hf
    · exact hk hn

/-- The loop spawns a fetch exactly for the species whose lookup returned an
error or no entry. -/
theorem needsFetch_iff_lookup_missed (e : WarmEntry) :
    e.needsFetch = (e.lookupErr.isSome || !e.lookupFound) := by
  rcases e with ⟨n, le, lf, fe⟩
  cases le <;> cases lf <;> rfl

/-- C12: for every species list, every outcome of the lookups and fetches and
every schedule of the goroutines, once the batch is over the completed calls
of `Get` are, up to order, exactly one for each species of the list whose cache
lookup returned an error or no entry, with the name of that species and
whatever its `Get` returns, and none for a species whose lookup returned an
entry without error; `Initializing` then holds no name of a species whose
lookup returned an error or no entry, and none of the names the loop stored;
and the batch does come to its end, for instance when the species are handled
one after the other. -/
theorem warmer_fetches_each_missing_once (entries : List WarmEntry) (init0 : List String)
    (sched : List WarmAction) :
    (Warmer.run (sequentialSchedule entries) (Warmer.start entries init0)).over = true ∧
    ((Warmer.run sched (Warmer.start entries init0)).over = true →
      (Warmer.run sched (Warmer.start entries init0)).gets.Perm
          ((entries.filter (fun e => e.lookupErr.isSome || !e.lookupFound)).map
            (fun e => ({ name := e.name, result := e.fetchErr } : Fetch))) ∧
        (∀ e ∈ entries, e.lookupErr = none → e.lookupFound = true →
          (∀ e1 ∈ entries, e1.name = e.name → e1.lookupErr = none ∧ e1.lookupFound = true) →
          ∀ f ∈ (Warmer.run sched (Warmer.start entries init0)).gets, f.name ≠ e.name) ∧
        (∀ e ∈ entries, (e.lookupErr ≠ none ∨ e.lookupFound = false) →
          e.name ∉ (Warmer.run sched (Warmer.start entries init0)).initializing) ∧
        (∀ n ∈ (Warmer.run sched (Warmer.start entries init0)).marked,
          n ∉ (Warmer.run sched (Warmer.start entries init0)).initializing)) := by
  refine ⟨run_sequentialSchedule entries _ rfl rfl rfl rfl rfl rfl rfl rfl rfl, ?_⟩
  intro ho
  obtain ⟨hp, hi, hm⟩ := warmer_batch_result entries init0 sched ho
  have hnf : WarmEntry.needsFetch = fun e => e.lookupErr.isSome || !e.lookupFound :=
    funext needsFetch_iff_lookup_missed
  rw [hnf] at hp
  have hp1 : (Warmer.run sched (Warmer.start entries init0)).gets.Perm
      ((entries.filter (fun e => e.lookupErr.isSome || !e.lookupFound)).map
        (fun e => ({ name := e.name, result := e.fetchErr } : Fetch))) := hp
  refine ⟨hp1, ?_, ?_, ?_⟩
  · intro e _ _ _ hall f hf hname
    have hf1 := hp1.subset hf
    simp only [List.mem_map, List.mem_filter, Bool.or_eq_true, Option.isSome_iff_exists,
      Bool.not_eq_true'] at hf1
    obtain ⟨e1, ⟨he1, hmiss⟩, hfe⟩ := hf1
    have hn1 : e1.name = e.name := by
      rw [← hname, ← hfe]
    obtain ⟨h1, h2⟩ := hall e1 he1 hn1
    rcases hmiss with ⟨x, hx⟩ | hx
    · rw [h1] at hx
      cases hx
    · rw [h2] at hx
      cases hx
  · intro e he hmiss
    apply hi e he
    rw [needsFetch_iff_lookup_missed]
    rcases hmiss with h | h
    · rcases hl : e.lookupErr with _ | x
      · exact absurd hl h
      · rfl
    · simp [h]
  · exact hm

/-- Witness for C12: three species, one cached, one whose fetch fails and one
whose lookup failed, handled with the two fetch goroutines overlapping: the
two completed calls of `Get` are those for the two species not found in the
cache. -/
theorem warmer_fetches_each_missing_once_witness :
    (Warmer.run
        [.loop, .loop, .loop, .acquire ⟨"Parus major", some "timeout"⟩,
          .acquire ⟨"Turdus merula", none⟩, .getReturns ⟨"Turdus merula", none⟩,
          .getReturns ⟨"Parus major", some "timeout"⟩, .release ⟨"Parus major", some "timeout"⟩,
          .release ⟨"Turdus merula", none⟩, .unmark ⟨"Turdus merula", none⟩,
          .unmark ⟨"Parus major", some "timeout"⟩, .done ⟨"Parus major", some "timeout"⟩,
          .done ⟨"Turdus merula", none⟩, .afterLoop]
        (Warmer.start
          [⟨"Parus major", none, false, some "timeout"⟩, ⟨"Pica pica", none, true, none⟩,
            ⟨"Turdus merula", some "db locked", true, none⟩] [])).gets.Perm
      [⟨"Parus major", some "timeout"⟩, ⟨"Turdus merula", none⟩] :=
  ((warmer_fetches_each_missing_once
    [⟨"Parus major", none, false, some "timeout"⟩, ⟨"Pica pica", none, true, none⟩,
      ⟨"Turdus merula", some "db locked", true, none⟩] []
    [.loop, .loop, .loop, .acquire ⟨"Parus major", some "timeout"⟩,
      .acquire ⟨"Turdus merula", none⟩, .getReturns ⟨"Turdus merula", none⟩,
      .getReturns ⟨"Parus major", some "timeout"⟩, .release ⟨"Parus major", some "timeout"⟩,
      .release ⟨"Turdus merula", none⟩, .unmark ⟨"Turdus merula", none⟩,
      .unmark ⟨"Parus major", some "timeout"⟩, .done ⟨"Parus major", some "timeout"⟩,
      .done ⟨"Turdus merula", none⟩, .afterLoop]).2 (by decide)).1

/-- C13: in every state the warmer can reach, for every species list and every
schedule, at most 5 calls of `Get` are in progress: the goroutines inside `Get`
or past it with their permit not yet given back are as many as the elements of
`sem`, which never exceed 5; a goroutine whose `Get` has ended, with or without
error, gives its permit back at its next statement; and when the batch is over
no permit is held. -/
theorem warmer_at_most_five_fetches (entries : List WarmEntry) (init0 : List String)
    (sched : List WarmAction) :
    (Warmer.run sched (Warmer.start entries init0)).fetching.length ≤ 5 ∧
    (Warmer.run sched (Warmer.start entries init0)).sem =
      (Warmer.run sched (Warmer.start entries init0)).fetching.length +
        (Warmer.run sched (Warmer.start entries init0)).fetched.length ∧
    (Warmer.run sched (Warmer.start entries init0)).sem ≤ 5 ∧
    (∀ f, f ∈ (Warmer.run sched (Warmer.start entries init0)).fetching →
      (((Warmer.run sched (Warmer.start entries init0)).step (.getReturns f)).step
        (.release f)).sem + 1 = (Warmer.run sched (Warmer.start entries init0)).sem) ∧
    ((Warmer.run sched (Warmer.start entries init0)).over = true →
      (Warmer.run sched (Warmer.start entries init0)).sem = 0) := by
  have hinv := Warmer.inv_run entries init0 sched _ (Warmer.inv_start entries init0)
  generalize Warmer.run sched (Warmer.start entries init0) = s at hinv
  have h1 := hinv.sem_eq
  have h2 := hinv.sem_le
  refine ⟨by omega, h1, h2, ?_, ?_⟩
  · intro f hf
    have hl := List.length_pos_of_mem hf
    simp only [Warmer.step, hf, if_true, List.mem_append, List.mem_singleton, or_true]
    omega
  · intro ho
    obtain ⟨_, e2, e3, _, _⟩ := hinv.idle_of_over ho
    rw [h1, e2, e3]
    rfl

/-- Witness for C13: seven species without cached image; once all seven
goroutines have tried to take a permit, five are fetching and two still wait,
and the first fetch to end, a failed one, frees its permit. -/
theorem warmer_at_most_five_fetches_witness :
    (((Warmer.run
        [.loop, .loop, .loop, .loop, .loop, .loop, .loop,
          .acquire ⟨"a", some "404"⟩, .acquire ⟨"b", none⟩, .acquire ⟨"c", none⟩,
          .acquire ⟨"d", none⟩, .acquire ⟨"e", none⟩, .acquire ⟨"f", none⟩,
          .acquire ⟨"g", none⟩]
        (Warmer.start
          [⟨"a", none, false, some "404"⟩, ⟨"b", none, false, none⟩, ⟨"c", none, false, none⟩,
            ⟨"d", none, false, none⟩, ⟨"e", none, false, none⟩, ⟨"f", none, false, none⟩,
            ⟨"g", none, false, none⟩] [])).step (.getReturns ⟨"a", some "404"⟩)).step
      (.release ⟨"a", some "404"⟩)).sem + 1 =
    (Warmer.run
        [.loop, .loop, .loop, .loop, .loop, .loop, .loop,
          .acquire ⟨"a", some "404"⟩, .acquire ⟨"b", none⟩, .acquire ⟨"c", none⟩,
          .acquire ⟨"d", none⟩, .acquire ⟨"e", none⟩, .acquire ⟨"f", none⟩,
          .acquire ⟨"g", none⟩]
        (Warmer.start
          [⟨"a", none, false, some "404"⟩, ⟨"b", none, false, none⟩, ⟨"c", none, false, none⟩,
            ⟨"d", none, false, none⟩, ⟨"e", none, false, none⟩, ⟨"f", none, false, none⟩,
            ⟨"g", none, false, none⟩] [])).sem :=
  (warmer_at_most_five_fetches
    [⟨"a", none, false, some "404"⟩, ⟨"b", none, false, none⟩, ⟨"c", none, false, none⟩,
      ⟨"d", none, false, none⟩, ⟨"e", none, false, none⟩, ⟨"f", none, false, none⟩,
      ⟨"g", none, false, none⟩] []
    [.loop, .loop, .loop, .loop, .loop, .loop, .loop,
      .acquire ⟨"a", some "404"⟩, .acquire ⟨"b", none⟩, .acquire ⟨"c", none⟩,
      .acquire ⟨"d", none⟩, .acquire ⟨"e", none⟩, .acquire ⟨"f", none⟩,
      .acquire ⟨"g", none⟩]).2.2.2.1 ⟨"a", some "404"⟩ (by decide)

/-- Seven species without cached image, all seven goroutines at their acquire:
five hold a permit and are fetching, two wait. -/
theorem seven_species_five_permits :
    (Warmer.run
        [.loop, .loop, .loop, .loop, .loop, .loop, .loop,
          .acquire ⟨"a", some "404"⟩, .acquire ⟨"b", none⟩, .acquire ⟨"c", none⟩,
          .acquire ⟨"d", none⟩, .acquire ⟨"e", none⟩, .acquire ⟨"f", none⟩,
          .acquire ⟨"g", none⟩]
        (Warmer.start
          [⟨"a", none, false, some "404"⟩, ⟨"b", none, false, none⟩, ⟨"c", none, false, none⟩,
            ⟨"d", none, false, none⟩, ⟨"e", none, false, none⟩, ⟨"f", none, false, none⟩,
            ⟨"g", none, false, none⟩] [])).fetching.length = 5 ∧
    (Warmer.run
        [.loop, .loop, .loop, .loop, .loop, .loop, .loop,
          .acquire ⟨"a", some "404"⟩, .acquire ⟨"b", none⟩, .acquire ⟨"c", none⟩,
          .acquire ⟨"d", none⟩, .acquire ⟨"e", none⟩, .acquire ⟨"f", none⟩,
          .acquire ⟨"g", none⟩]
        (Warmer.start
          [⟨"a", none, false, some "404"⟩, ⟨"b", none, false, none⟩, ⟨"c", none, false, none⟩,
            ⟨"d", none, false, none⟩, ⟨"e", none, false, none⟩, ⟨"f", none, false, none⟩,
            ⟨"g", none, false, none⟩] [])).spawned.length = 2 := by
  decide

/-- C14, as the code has it: the batch is joined on the WaitGroup declared
inside the warmer's background goroutine.  That counter is the number of fetch
goroutines that are not over, and the statements after the loop end only when
none is left.  The supervisor's WaitGroup is not involved: no move of the
warmer changes the supervisor's world, and the quit arm of the main loop
returns or waits as its own counter says, whatever the warmer is doing. -/
theorem warmer_joined_on_own_waitgroup (entries : List WarmEntry) (init0 : List String)
    (sched : List WarmAction) (exits : Nat) (w : World) :
    (Warmer.run sched (Warmer.start entries init0)).wg =
      ((Warmer.run sched (Warmer.start entries init0)).live : Int) ∧
    ((Warmer.run sched (Warmer.start entries init0)).over = true →
      (Warmer.run sched (Warmer.start entries init0)).live = 0) ∧
    (System.warmAll sched ⟨w, some (Warmer.start entries init0)⟩).world = w ∧
    (System.warmAll sched ⟨w, some (Warmer.start entries init0)⟩).warmer =
      some (Warmer.run sched (Warmer.start entries init0)) ∧
    (System.quit exits (System.warmAll sched ⟨w, some (Warmer.start entries init0)⟩)).1 =
      shutdown exits w := by
  have hinv := Warmer.inv_run entries init0 sched _ (Warmer.inv_start entries init0)
  refine ⟨hinv.wg_eq, ?_, System.warmAll_world _ _, System.warmAll_warmer _ _ _, ?_⟩
  · intro ho
    obtain ⟨e1, e2, e3, e4, e5⟩ := hinv.idle_of_over ho
    simp [Warmer.live, e1, e2, e3, e4, e5]
  · simp [System.quit, System.warmAll_world]

/-- Witness for C14 (amended): one species, fetched and finished before the
statements after the loop run. -/
theorem warmer_joined_on_own_waitgroup_witness :
    (Warmer.run (sequentialSchedule [⟨"Pica pica", none, false, none⟩])
      (Warmer.start [⟨"Pica pica", none, false, none⟩] [])).live = 0 :=
  (warmer_joined_on_own_waitgroup [⟨"Pica pica", none, false, none⟩] []
    (sequentialSchedule [⟨"Pica pica", none, false, none⟩]) 0 ⟨[], [], 100, 0, 0⟩).2.1
    (by decide)

/-- C14 fails as stated: the supervisor has no registered worker left, a
warm-up fetch is inside `Get`, and the quit arm runs through its wait, deletes
the interpreter and returns. -/
theorem shutdown_returns_during_warmup_fetch :
    ((System.warmAll [.loop, .acquire ⟨"Pica pica", none⟩]
        ⟨⟨[], [], 100, 0, 0⟩, initBirdImageCache none none
          [⟨"Pica pica", none, false, none⟩] []⟩).warmer.map
      (fun s => (s.fetching, s.wg))) = some ([⟨"Pica pica", none⟩], 1) ∧
    (System.quit 0 (System.warmAll [.loop, .acquire ⟨"Pica pica", none⟩]
        ⟨⟨[], [], 100, 0, 0⟩, initBirdImageCache none none
          [⟨"Pica pica", none, false, none⟩] []⟩)).1 =
      .returned none
        ⟨[.closeControlChan, .removeAllMonitors, .wgWait, .birdnetDelete], [], 100, 0, 0⟩ := by
  decide

end Realtime

namespace Media

/-! ## Substrings and prefixes -/

theorem contains_cons_false {c : Nat} {s sub : Bytes} (h : contains (c :: s) sub = false) :
    contains s sub = false := by
  simp only [contains, Bool.or_eq_false_iff] at h
  exact h.2

theorem contains_drop_false (n : Nat) (s sub : Bytes) (h : contains s sub = false) :
    contains (s.drop n) sub = false := by
  induction n generalizing s with
  | zero => simpa using h
  | succ n ih =>
    cases s with
    | nil => simpa using h
    | cons c s =>
      simp only [List.drop_succ_cons]
      exact ih s (contains_cons_false h)

theorem hasPrefix_false_of_contains_false {s sub : Bytes} (h : contains s sub = false) :
    hasPrefix s sub = false := by
  cases s with
  | nil =>
    simp only [contains] at h
    cases sub with
    | nil => simp at h
    | cons a t => rfl
  | cons c s =>
    simp only [contains, Bool.or_eq_false_iff] at h
    exact h.1

theorem trimPrefix_eq_drop (s pre : Bytes) : ∃ n, trimPrefix s pre = s.drop n := by
  unfold trimPrefix
  split
  · exact ⟨_, rfl⟩
  · exact ⟨0, rfl⟩

theorem contains_trimPrefix_false (s pre sub : Bytes) (h : contains s sub = false) :
    contains (trimPrefix s pre) sub = false := by
  obtain ⟨n, hn⟩ := trimPrefix_eq_drop s pre
  rw [hn]
  exact contains_drop_false n s sub h

theorem hasPrefix_two (a b : Nat) (s : Bytes) (x y : Nat) :
    hasPrefix (a :: b :: s) [x, y] = (x == a && y == b) := by
  simp [hasPrefix, List.isPrefixOf]

theorem hasPrefix_two_single (a : Nat) (x y : Nat) : hasPrefix [a] [x, y] = false := by
  simp [hasPrefix, List.isPrefixOf]

/-- After one `/` is trimmed from a string without `//`, the string does not
start with `/`. -/
theorem head_trimPrefix_slash (q : Bytes) (h : contains q [slash, slash] = false) :
    (trimPrefix q [slash]).head? ≠ some slash := by
  cases q with
  | nil => simp [trimPrefix, hasPrefix, List.isPrefixOf]
  | cons a t =>
    by_cases ha : a = slash
    · subst ha
      have hp : hasPrefix (slash :: t) [slash] = true := by simp [hasPrefix, List.isPrefixOf]
      simp only [trimPrefix, hp, if_true, List.length_singleton, List.drop_succ_cons, List.drop_zero]
      cases t with
      | nil => simp
      | cons b u =>
        have h2 := hasPrefix_false_of_contains_false h
        rw [hasPrefix_two] at h2
        simp only [beq_self_eq_true, Bool.true_and, beq_eq_false_iff_ne, ne_eq] at h2
        simp only [List.head?_cons, ne_eq, Option.some.injEq]
        exact fun hb => h2 hb.symm
    · have hp : hasPrefix (a :: t) [slash] = false := by
        simp [hasPrefix, List.isPrefixOf]
        exact fun h => ha h.symm
      simp only [trimPrefix, hp, Bool.false_eq_true, if_false, List.head?_cons, ne_eq,
        Option.some.injEq]
      exact ha

/-! ## `strings.Split` and `strings.Join` on `/` -/

theorem splitSlash_ne_nil (s : Bytes) : splitSlash s ≠ [] := by
  cases s with
  | nil => simp [splitSlash]
  | cons c rest =>
    simp only [splitSlash]
    split
    · simp
    · split <;> simp

theorem splitSlash_no_slash (s : Bytes) : ∀ c ∈ splitSlash s, slash ∉ c := by
  induction s with
  | nil => simp [splitSlash]
  | cons a rest ih =>
    simp only [splitSlash]
    split
    · intro c hc
      rcases List.mem_cons.1 hc with rfl | hc
      · simp
      · exact ih c hc
    · rename_i ha
      split
      · intro c hc
        simp only [List.mem_singleton] at hc
        subst hc
        simp only [List.mem_singleton]
        exact fun h => ha h.symm
      · rename_i p ps hsp
        intro c hc
        rcases List.mem_cons.1 hc with rfl | hc
        · intro hmem
          rcases List.mem_cons.1 hmem with h | h
          · exact ha h.symm
          · exact ih p (by rw [hsp]; exact List.mem_cons_self _ _) h
        · exact ih c (by rw [hsp]; exact List.mem_cons_of_mem _ hc)

theorem cleanStep_good (rooted : Bool) (kept : List Bytes) (elem : Bytes)
    (hk : ∀ k ∈ kept, goodElem k) (he : slash ∉ elem) :
    ∀ k ∈ cleanStep rooted kept elem, goodElem k := by
  have hdd : goodElem dotdot := by
    constructor <;> simp [dotdot, slash]
  unfold cleanStep
  split
  · exact hk
  · rename_i h1
    split
    · split
      · rename_i top below
        split
        · intro k hkm
          rcases List.mem_cons.1 hkm with rfl | hkm
          · exact hdd
          · exact hk k hkm
        · intro k hkm
          exact hk k (List.mem_cons_of_mem _ hkm)
      · split
        · simp
        · intro k hkm
          simp only [List.mem_singleton] at hkm
          subst hkm
          exact hdd
    · intro k hkm
      rcases List.mem_cons.1 hkm with rfl | hkm
      · exact ⟨fun h => h1 (Or.inl h), he⟩
      · exact hk k hkm

theorem foldl_cleanStep_good (rooted : Bool) (comps : List Bytes) (kept : List Bytes)
    (hk : ∀ k ∈ kept, goodElem k) (hc : ∀ c ∈ comps, slash ∉ c) :
    ∀ k ∈ comps.foldl (cleanStep rooted) kept, goodElem k := by
  induction comps generalizing kept with
  | nil => exact hk
  | cons c rest ih =>
    simp only [List.foldl_cons]
    exact ih _ (cleanStep_good rooted kept c hk (hc c (List.mem_cons_self _ _)))
      (fun x hx => hc x (List.mem_cons_of_mem _ hx))

theorem pathElements_good (path : Bytes) : ∀ e ∈ pathElements path, goodElem e := by
  intro e he
  simp only [pathElements, List.mem_reverse] at he
  exact foldl_cleanStep_good _ _ [] (by simp) (splitSlash_no_slash path) e he

theorem hasPrefix_cons_two (a : Nat) (s : Bytes) (x y : Nat) :
    hasPrefix (a :: s) [x, y] = (x == a && (s.head? == some y)) := by
  cases s with
  | nil => simp [hasPrefix, List.isPrefixOf]
  | cons b t =>
    simp only [hasPrefix_two, List.head?_cons]
    by_cases h : y = b
    · subst h
      simp
    · have h1 : (y == b) = false := by simpa using h
      have h2 : (b == y) = false := by simpa using fun e : b = y => h e.symm
      simp [h1, h2]

theorem contains_cons_two (a : Nat) (s : Bytes) (x y : Nat) :
    contains (a :: s) [x, y] = ((x == a && (s.head? == some y)) || contains s [x, y]) := by
  simp only [contains, hasPrefix_cons_two]

/-- Joining with `/` an element without `/` creates no `//`. -/
theorem contains_slashes_append (e t : Bytes) (he : slash ∉ e) (hne : e ≠ [])
    (ht : t.head? ≠ some slash) (hc : contains t [slash, slash] = false) :
    contains (e ++ slash :: t) [slash, slash] = false := by
  induction e with
  | nil => exact absurd rfl hne
  | cons a e ih =>
    have ha : (slash == a) = false := by simpa using fun h : slash = a => he (by simp [h])
    have he' : slash ∉ e := fun h => he (List.mem_cons_of_mem _ h)
    simp only [List.cons_append, contains_cons_two, ha, Bool.false_and, Bool.false_or]
    cases e with
    | nil =>
      simp only [List.nil_append, contains_cons_two, hc, Bool.or_false, beq_self_eq_true,
        Bool.true_and, beq_eq_false_iff_ne, ne_eq]
      exact ht
    | cons b e => exact ih he' (by simp)

/-- Joining with `/` creates no `..`. -/
theorem contains_dotdot_append (e t : Bytes) (he : contains e dotdot = false)
    (ht : contains t dotdot = false) :
    contains (e ++ slash :: t) dotdot = false := by
  induction e with
  | nil =>
    simp only [List.nil_append, dotdot, contains_cons_two]
    simp only [dotdot] at ht
    simp [ht, slash]
  | cons a e ih =>
    have h1 := hasPrefix_false_of_contains_false he
    have h2 := ih (contains_cons_false he)
    simp only [dotdot] at h1 h2 ⊢
    rw [hasPrefix_cons_two] at h1
    simp only [List.cons_append, contains_cons_two, h2, Bool.or_false]
    cases e with
    | nil => simp [slash]
    | cons b e => simpa using h1

theorem joinSlash_cons_cons (c d : Bytes) (rest : List Bytes) :
    joinSlash (c :: d :: rest) = c ++ slash :: joinSlash (d :: rest) := rfl

theorem head_joinSlash (es : List Bytes) (h : ∀ e ∈ es, goodElem e) :
    (joinSlash es).head? ≠ some slash := by
  cases es with
  | nil => simp [joinSlash]
  | cons c rest =>
    obtain ⟨hne, hs⟩ := h c (List.mem_cons_self _ _)
    cases c with
    | nil => exact absurd rfl hne
    | cons a c =>
      have ha : a ≠ slash := fun e => hs (by simp [e])
      cases rest with
      | nil => simpa [joinSlash] using ha
      | cons d rest => simpa [joinSlash_cons_cons] using ha

theorem joinSlash_no_slashes (es : List Bytes) (h : ∀ e ∈ es, goodElem e) :
    contains (joinSlash es) [slash, slash] = false := by
  induction es with
  | nil => simp [joinSlash, contains]
  | cons c rest ih =>
    obtain ⟨hne, hs⟩ := h c (List.mem_cons_self _ _)
    have hrest : ∀ e ∈ rest, goodElem e := fun e he => h e (List.mem_cons_of_mem _ he)
    cases rest with
    | nil =>
      simp only [joinSlash]
      clear ih hrest h
      induction c with
      | nil => simp [contains]
      | cons a c ihc =>
        have ha : (slash == a) = false := by simpa using fun e : slash = a => hs (by simp [e])
        simp only [contains_cons_two, ha, Bool.false_and, Bool.false_or]
        cases c with
        | nil => simp [contains]
        | cons b c => exact ihc (by simp) (fun h => hs (List.mem_cons_of_mem _ h))
    | cons d rest =>
      rw [joinSlash_cons_cons]
      exact contains_slashes_append c _ hs hne (head_joinSlash _ hrest) (ih hrest)

theorem joinSlash_no_dotdot (es : List Bytes) (h : ∀ e ∈ es, contains e dotdot = false) :
    contains (joinSlash es) dotdot = false := by
  induction es with
  | nil => simp [joinSlash, contains, dotdot]
  | cons c rest ih =>
    have hrest : ∀ e ∈ rest, contains e dotdot = false :=
      fun e he => h e (List.mem_cons_of_mem _ he)
    cases rest with
    | nil => simpa [joinSlash] using h c (List.mem_cons_self _ _)
    | cons d rest =>
      rw [joinSlash_cons_cons]
      exact contains_dotdot_append c _ (h c (List.mem_cons_self _ _)) (ih hrest)

/-- A cleaned path has no `//` in it. -/
theorem filepathClean_no_slashes (path : Bytes) :
    contains (filepathClean path) [slash, slash] = false := by
  unfold filepathClean
  split
  · decide
  · unfold renderPath
    have hg := pathElements_good path
    split
    · rw [contains_cons_two, joinSlash_no_slashes _ hg]
      have := head_joinSlash _ hg
      simp only [beq_self_eq_true, Bool.true_and, Bool.or_false, beq_eq_false_iff_ne, ne_eq]
      exact this
    · split
      · decide
      · exact joinSlash_no_slashes _ hg

/-! ## `filepath.Join` below a directory -/

theorem splitSlash_append (a b : Bytes) :
    splitSlash (a ++ slash :: b) = splitSlash a ++ splitSlash b := by
  induction a with
  | nil => simp [splitSlash]
  | cons c a ih =>
    rw [List.cons_append]
    by_cases hc : c = slash
    · simp [splitSlash, hc, ih]
    · rcases hs : splitSlash a with _ | ⟨p, ps⟩
      · exact absurd hs (splitSlash_ne_nil a)
      · simp [splitSlash, hc, ih, hs]

theorem splitSlash_head (rest p : Bytes) (ps : List Bytes) (x : Nat)
    (h : splitSlash rest = p :: ps) (hp : p.head? = some x) : rest.head? = some x := by
  cases rest with
  | nil =>
    simp only [splitSlash, List.cons.injEq] at h
    rw [← h.1] at hp
    simp at hp
  | cons b r =>
    simp only [splitSlash] at h
    split at h
    · simp only [List.cons.injEq] at h
      rw [← h.1] at hp
      simp at hp
    · split at h
      · simp only [List.cons.injEq] at h
        rw [← h.1] at hp
        simpa using hp
      · simp only [List.cons.injEq] at h
        rw [← h.1] at hp
        simpa using hp

/-- A `..` inside an element is a `..` inside the whole string. -/
theorem contains_dotdot_of_elem (s : Bytes) :
    ∀ c ∈ splitSlash s, contains c dotdot = true → contains s dotdot = true := by
  induction s with
  | nil =>
    intro c hc h
    simp only [splitSlash, List.mem_singleton] at hc
    subst hc
    simp [contains, dotdot] at h
  | cons a rest ih =>
    intro c hc h
    simp only [splitSlash] at hc
    split at hc
    · rcases List.mem_cons.1 hc with rfl | hc
      · simp [contains, dotdot] at h
      · simp only [contains, ih c hc h, Bool.or_true]
    · rcases hs : splitSlash rest with _ | ⟨p, ps⟩
      · exact absurd hs (splitSlash_ne_nil rest)
      · rw [hs] at hc
        simp only at hc
        rcases List.mem_cons.1 hc with rfl | hc
        · simp only [dotdot, contains_cons_two, Bool.or_eq_true, Bool.and_eq_true, beq_iff_eq]
            at h ⊢
          rcases h with ⟨h1, h2⟩ | h
          · left
            exact ⟨h1, splitSlash_head rest p ps 46 hs h2⟩
          · right
            exact ih p (by rw [hs]; exact List.mem_cons_self _ _) h
        · simp only [contains, ih c (by rw [hs]; exact List.mem_cons_of_mem _ hc) h, Bool.or_true]

theorem elem_no_dotdot (s : Bytes) (h : contains s dotdot = false) :
    ∀ c ∈ splitSlash s, contains c dotdot = false := by
  intro c hc
  cases hcd : contains c dotdot
  · rfl
  · rw [contains_dotdot_of_elem s c hc hcd] at h
    cases h

theorem ne_dotdot_of_no_dotdot (c : Bytes) (h : contains c dotdot = false) : c ≠ dotdot := by
  intro e
  subst e
  simp [contains, dotdot, hasPrefix, List.isPrefixOf] at h

/-- Without `..` among the elements, cleaning only drops the empty elements
and the `.` elements. -/
theorem foldl_cleanStep_no_dotdot (rooted : Bool) (comps kept : List Bytes)
    (h : ∀ c ∈ comps, c ≠ dotdot) :
    comps.foldl (cleanStep rooted) kept = (comps.filter isRealElem).reverse ++ kept := by
  induction comps generalizing kept with
  | nil => rfl
  | cons c rest ih =>
    have hc := h c (List.mem_cons_self _ _)
    rw [List.foldl_cons, ih _ (fun x hx => h x (List.mem_cons_of_mem _ hx))]
    by_cases hr : c = [] ∨ c = dot
    · have : isRealElem c = false := by
        rcases hr with h | h <;> simp [isRealElem, h]
      simp [cleanStep, hr, List.filter_cons, this]
    · have : isRealElem c = true := by
        simp only [not_or] at hr
        simp [isRealElem, hr.1, hr.2]
      simp [cleanStep, hr, hc, List.filter_cons, this]

theorem isAbs_append (a b : Bytes) (h : a ≠ []) : isAbs (a ++ b) = isAbs a := by
  cases a with
  | nil => exact absurd rfl h
  | cons c a => rfl

theorem filepathClean_eq_render (path : Bytes) :
    filepathClean path = renderPath (isAbs path) (pathElements path) := by
  unfold filepathClean
  split
  · rename_i h
    subst h
    decide
  · rfl

/-- Joining a relative path without `..` to a directory: the elements of the
directory stay, followed by the real elements of the relative path. -/
theorem getFullPath_below (exportPath rel : Bytes)
    (hdd : contains rel dotdot = false) (hrel : rel.head? ≠ some slash) :
    getFullPath exportPath rel =
        renderPath (isAbs exportPath)
          (pathElements exportPath ++ (splitSlash rel).filter isRealElem) ∨
      (exportPath = [] ∧ rel = [] ∧ getFullPath exportPath rel = []) := by
  have hne : ∀ c ∈ splitSlash rel, c ≠ dotdot :=
    fun c hc => ne_dotdot_of_no_dotdot c (elem_no_dotdot rel hdd c hc)
  by_cases he : exportPath = []
  · subst he
    by_cases hr : rel = []
    · right
      subst hr
      exact ⟨rfl, rfl, by decide⟩
    · left
      have habs : isAbs rel = false := by
        simpa [isAbs] using hrel
      simp only [getFullPath, filepathJoin, ne_eq, not_true_eq_false, if_false, hr,
        not_false_eq_true, if_true]
      rw [filepathClean_eq_render, habs]
      simp only [pathElements, habs, foldl_cleanStep_no_dotdot _ _ _ hne, List.append_nil,
        List.reverse_reverse]
      rfl
  · left
    simp only [getFullPath, filepathJoin, ne_eq, he, not_false_eq_true, if_true]
    rw [filepathClean_eq_render, isAbs_append _ _ he]
    simp only [pathElements, isAbs_append _ _ he, splitSlash_append, List.foldl_append,
      foldl_cleanStep_no_dotdot _ (splitSlash rel) _ hne, List.reverse_append,
      List.reverse_reverse]

/-! ## `sanitizeClipName` -/

theorem ascii_clips : ascii "clips/" = [99, 108, 105, 112, 115, 47] := by decide

/-- What an accepted clip name went through: it decodes, the decoded name is
short enough and matches the pattern, its cleaned path has no `..`, and the
result is what remains of the cleaned path after the prefixes are trimmed. -/
theorem sanitizeClipName_ok_inv (exportPath clipName result : Bytes)
    (h : sanitizeClipName exportPath clipName = .ok result) :
    ∃ decoded, clipName ≠ [] ∧ queryUnescape clipName = .ok decoded ∧
      decoded.length ≤ MaxClipNameLength ∧ matchAllowedCharacters decoded = true ∧
      contains (filepathClean decoded) dotdot = false ∧
      ((isAbs (trimPrefix (filepathClean decoded) (ascii "clips/")) = false ∧
          result = trimPrefix (filepathClean decoded) (ascii "clips/")) ∨
        (isAbs (trimPrefix (filepathClean decoded) (ascii "clips/")) = true ∧
          hasPrefix (trimPrefix (filepathClean decoded) (ascii "clips/")) exportPath = true ∧
          result = trimPrefix
            (trimPrefix (trimPrefix (filepathClean decoded) (ascii "clips/")) exportPath)
            [slash])) := by
  unfold sanitizeClipName at h
  by_cases h0 : clipName = []
  · simp [h0] at h
  · simp only [h0, if_false] at h
    rcases hq : queryUnescape clipName with e | decoded
    · simp [hq] at h
    · simp only [hq] at h
      by_cases h1 : decoded.length > MaxClipNameLength
      · simp [h1] at h
      · simp only [h1, if_false] at h
        cases h2 : matchAllowedCharacters decoded
        · simp [h2] at h
        · simp only [h2, Bool.not_true, Bool.false_eq_true, if_false] at h
          cases h3 : contains (filepathClean decoded) dotdot
          · simp only [h3, Bool.false_eq_true, if_false] at h
            refine ⟨decoded, h0, rfl, by omega, h2, h3, ?_⟩
            cases h4 : isAbs (trimPrefix (filepathClean decoded) (ascii "clips/"))
            · simp only [h4, Bool.false_eq_true, if_false, toSlash] at h
              injection h with h
              exact Or.inl ⟨rfl, h.symm⟩
            · simp only [h4, if_true] at h
              cases h5 : hasPrefix (trimPrefix (filepathClean decoded) (ascii "clips/")) exportPath
              · simp [h5] at h
              · simp only [h5, if_true, toSlash] at h
                injection h with h
                exact Or.inr ⟨rfl, rfl, h.symm⟩
          · simp [h3] at h

/-- C15: whenever `sanitizeClipName` returns a path, for any clip name and any
export path, the path does not begin with `/`, has no `..` in it (so none of
its elements is `..`), and `getFullPath` of it is the cleaned export path with
further elements appended, none of them `..`: the same root, the elements of
the export directory, then the real elements of the returned path (or, when
both are empty, the empty string itself). -/
theorem sanitizeClipName_stays_below (exportPath clipName result : Bytes)
    (h : sanitizeClipName exportPath clipName = .ok result) :
    result.head? ≠ some slash ∧ contains result dotdot = false ∧
    (∀ c ∈ splitSlash result, c ≠ dotdot) ∧
    filepathClean exportPath = renderPath (isAbs exportPath) (pathElements exportPath) ∧
    (getFullPath exportPath result =
        renderPath (isAbs exportPath)
          (pathElements exportPath ++ (splitSlash result).filter isRealElem) ∨
      (exportPath = [] ∧ result = [] ∧ getFullPath exportPath result = [])) := by
  obtain ⟨decoded, _, _, _, _, hdd, hres⟩ := sanitizeClipName_ok_inv exportPath clipName result h
  have hss := filepathClean_no_slashes decoded
  have h1 : result.head? ≠ some slash := by
    rcases hres with ⟨ha, hr⟩ | ⟨_, _, hr⟩
    · rw [hr]
      simpa [isAbs] using ha
    · rw [hr]
      exact head_trimPrefix_slash _
        (contains_trimPrefix_false _ _ _ (contains_trimPrefix_false _ _ _ hss))
  have h2 : contains result dotdot = false := by
    rcases hres with ⟨_, hr⟩ | ⟨_, _, hr⟩
    · rw [hr]
      exact contains_trimPrefix_false _ _ _ hdd
    · rw [hr]
      exact contains_trimPrefix_false _ _ _
        (contains_trimPrefix_false _ _ _ (contains_trimPrefix_false _ _ _ hdd))
  exact ⟨h1, h2, fun c hc => ne_dotdot_of_no_dotdot c (elem_no_dotdot result h2 c hc),
    filepathClean_eq_render exportPath, getFullPath_below exportPath result h2 h1⟩

/-- Witness for C15: a clip below `clips/`. -/
theorem sanitizeClipName_stays_below_witness :
    (ascii "2024/a.wav").head? ≠ some slash ∧ contains (ascii "2024/a.wav") dotdot = false ∧
    (∀ c ∈ splitSlash (ascii "2024/a.wav"), c ≠ dotdot) ∧
    filepathClean (ascii "clips/") =
      renderPath (isAbs (ascii "clips/")) (pathElements (ascii "clips/")) ∧
    (getFullPath (ascii "clips/") (ascii "2024/a.wav") =
        renderPath (isAbs (ascii "clips/"))
          (pathElements (ascii "clips/") ++ (splitSlash (ascii "2024/a.wav")).filter isRealElem) ∨
      (ascii "clips/" = [] ∧ ascii "2024/a.wav" = [] ∧
        getFullPath (ascii "clips/") (ascii "2024/a.wav") = [])) :=
  sanitizeClipName_stays_below (ascii "clips/") (ascii "clips/2024/a.wav") (ascii "2024/a.wav")
    (by decide)

theorem queryUnescape_ne_nil (s d : Bytes) (hs : s ≠ []) (h : queryUnescape s = .ok d) :
    d ≠ [] := by
  cases s with
  | nil => exact absurd rfl hs
  | cons c rest =>
    unfold queryUnescape at h
    split at h
    · split at h
      · split at h
        · split at h
          · injection h with h
            rw [← h]
            simp
          · cases h
        · cases h
      · cases h
    · split at h
      · injection h with h
        rw [← h]
        simp
      · cases h

/-- Cleaning a path without `..` gives a path without `..`. -/
theorem filepathClean_no_dotdot (path : Bytes) (h : contains path dotdot = false) :
    contains (filepathClean path) dotdot = false := by
  have hel := elem_no_dotdot path h
  have hne : ∀ c ∈ splitSlash path, c ≠ dotdot :=
    fun c hc => ne_dotdot_of_no_dotdot c (hel c hc)
  have hpe : pathElements path = (splitSlash path).filter isRealElem := by
    simp [pathElements, foldl_cleanStep_no_dotdot _ _ _ hne]
  have hj : contains (joinSlash (pathElements path)) dotdot = false := by
    apply joinSlash_no_dotdot
    intro e he
    rw [hpe] at he
    exact hel e (List.mem_filter.1 he).1
  rw [filepathClean_eq_render]
  unfold renderPath
  split
  · simp only [dotdot, contains_cons_two] at hj ⊢
    simp [hj, slash]
  · split
    · decide
    · exact hj

/-- The cleaned form of a path that is not absolute is not absolute, also after
`clips/` is trimmed from its front. -/
theorem not_abs_after_clips (path : Bytes) (h : isAbs path = false) :
    isAbs (trimPrefix (filepathClean path) (ascii "clips/")) = false := by
  have hss := filepathClean_no_slashes path
  have hhead : (filepathClean path).head? ≠ some slash := by
    rw [filepathClean_eq_render, h]
    unfold renderPath
    simp only [Bool.false_eq_true, if_false]
    split
    · decide
    · exact head_joinSlash _ (pathElements_good path)
  unfold trimPrefix
  split
  · rename_i hp
    have hpre : ascii "clips/" <+: filepathClean path := by
      simpa [hasPrefix] using hp
    obtain ⟨t, ht⟩ := hpre
    rw [← ht] at hss ⊢
    rw [ascii_clips] at hss ⊢
    have h5 := contains_drop_false 5 _ _ hss
    simp only [List.cons_append, List.nil_append, List.drop_succ_cons, List.drop_zero] at h5
    have h6 := hasPrefix_false_of_contains_false h5
    rw [hasPrefix_cons_two] at h6
    simp only [slash, beq_self_eq_true, Bool.true_and, beq_eq_false_iff_ne, ne_eq] at h6
    simp only [List.length_cons, List.length_nil, List.cons_append, List.nil_append,
      List.drop_succ_cons, List.drop_zero, isAbs, slash, decide_eq_false_iff_not]
    exact h6
  · simpa [isAbs] using hhead

/-- C16: `sanitizeClipName` gives its errors in the order of its checks: the
empty name gives `ErrEmptyClipName`; otherwise a name that does not decode
gives the decoding error; otherwise a decoded name of more than 255 bytes gives
`ErrClipNameTooLong`; otherwise a byte outside `a-z A-Z 0-9 _ / . -` gives
`ErrInvalidCharacters`; otherwise `..` in the cleaned path gives
`ErrPathTraversal`.  A decoded name that passes the length and character
checks, is not absolute and has no `..` is accepted, and the result is its
cleaned path without a leading `clips/`. -/
theorem sanitizeClipName_errors (exportPath clipName : Bytes) :
    (clipName = [] → sanitizeClipName exportPath clipName = .error .ErrEmptyClipName) ∧
    (clipName ≠ [] → ∀ e, queryUnescape clipName = .error e →
      sanitizeClipName exportPath clipName = .error (.decoding e)) ∧
    (clipName ≠ [] → ∀ d, queryUnescape clipName = .ok d →
      (d.length > MaxClipNameLength →
        sanitizeClipName exportPath clipName = .error .ErrClipNameTooLong) ∧
      (d.length ≤ MaxClipNameLength → (∃ c ∈ d, allowedByte c = false) →
        sanitizeClipName exportPath clipName = .error .ErrInvalidCharacters) ∧
      (d.length ≤ MaxClipNameLength → (∀ c ∈ d, allowedByte c = true) →
        contains (filepathClean d) dotdot = true →
        sanitizeClipName exportPath clipName = .error .ErrPathTraversal) ∧
      (d.length ≤ MaxClipNameLength → (∀ c ∈ d, allowedByte c = true) →
        isAbs d = false → contains d dotdot = false →
        sanitizeClipName exportPath clipName =
          .ok (trimPrefix (filepathClean d) (ascii "clips/")))) := by
  refine ⟨?_, ?_, ?_⟩
  · intro h
    simp [sanitizeClipName, h]
  · intro h e he
    simp [sanitizeClipName, h, he]
  · intro h d hd
    have hdne := queryUnescape_ne_nil clipName d h hd
    have hmatch : (∀ c ∈ d, allowedByte c = true) → matchAllowedCharacters d = true := by
      intro hall
      cases d with
      | nil => exact absurd rfl hdne
      | cons a t =>
        simp only [matchAllowedCharacters, List.isEmpty_cons, Bool.not_false, Bool.true_and,
          List.all_eq_true]
        exact hall
    refine ⟨?_, ?_, ?_, ?_⟩
    · intro hl
      simp [sanitizeClipName, h, hd, hl]
    · intro hl ⟨c, hc, hbad⟩
      have hl' : ¬ d.length > MaxClipNameLength := by omega
      have hm : matchAllowedCharacters d = false := by
        cases hm : matchAllowedCharacters d
        · rfl
        · simp only [matchAllowedCharacters, Bool.and_eq_true, List.all_eq_true] at hm
          rw [hm.2 c hc] at hbad
          cases hbad
      simp [sanitizeClipName, h, hd, hl', hm]
    · intro hl hall hdd
      have hl' : ¬ d.length > MaxClipNameLength := by omega
      simp [sanitizeClipName, h, hd, hl', hmatch hall, hdd]
    · intro hl hall habs hdd
      have hl' : ¬ d.length > MaxClipNameLength := by omega
      simp [sanitizeClipName, h, hd, hl', hmatch hall, filepathClean_no_dotdot d hdd,
        not_abs_after_clips d habs, toSlash]

/-- Witness for C16: an escape that does not decode, an encoded space, an
encoded `..`, and an accepted name. -/
theorem sanitizeClipName_errors_witness :
    sanitizeClipName (ascii "clips/") (ascii "a%zz") = .error (.decoding (ascii "%zz")) ∧
    sanitizeClipName (ascii "clips/") (ascii "a+b.wav") = .error .ErrInvalidCharacters ∧
    sanitizeClipName (ascii "clips/") (ascii "%2e%2e/secret") = .error .ErrPathTraversal ∧
    sanitizeClipName (ascii "clips/") (ascii "clips/2024/a.wav") =
      .ok (trimPrefix (filepathClean (ascii "clips/2024/a.wav")) (ascii "clips/")) :=
  ⟨(sanitizeClipName_errors (ascii "clips/") (ascii "a%zz")).2.1 (by decide) (ascii "%zz")
      (by decide),
   ((sanitizeClipName_errors (ascii "clips/") (ascii "a+b.wav")).2.2 (by decide)
      (ascii "a b.wav") (by decide)).2.1 (by decide) ⟨32, by decide, by decide⟩,
   ((sanitizeClipName_errors (ascii "clips/") (ascii "%2e%2e/secret")).2.2 (by decide)
      (ascii "../secret") (by decide)).2.2.1 (by decide) (by decide) (by decide),
   ((sanitizeClipName_errors (ascii "clips/") (ascii "clips/2024/a.wav")).2.2 (by decide)
      (ascii "clips/2024/a.wav") (by decide)).2.2.2 (by decide) (by decide) (by decide)
      (by decide)⟩

/-! ## `sanitizeContentDispositionFilename` -/

theorem upperhex_alnum (n : Nat) (h : n < 16) : isAlnum (upperhex n) = true := by
  unfold upperhex isAlnum
  split <;> simp <;> omega

theorem queryEscape_safe (s : Bytes) : ∀ b ∈ queryEscape s, headerSafeByte b = true := by
  induction s with
  | nil => simp [queryEscape]
  | cons c rest ih =>
    intro b hb
    simp only [queryEscape, List.mem_append] at hb
    rcases hb with hb | hb
    · cases hs : shouldEscape c
      · simp only [hs, Bool.false_eq_true, if_false, List.mem_singleton] at hb
        subst hb
        simp only [shouldEscape, Bool.not_eq_false'] at hs
        simp only [headerSafeByte, Bool.or_eq_true] at hs ⊢
        tauto
      · simp only [hs, if_true] at hb
        split at hb
        · simp only [List.mem_singleton] at hb
          subst hb
          decide
        · simp only [List.mem_cons, List.mem_singleton, List.not_mem_nil, or_false] at hb
          rcases hb with rfl | rfl | rfl
          · decide
          · simp [headerSafeByte, upperhex_alnum _ (Nat.mod_lt _ (by decide))]
          · simp [headerSafeByte, upperhex_alnum _ (Nat.mod_lt _ (by decide))]
    · exact ih b hb

theorem headerSafeByte_spec (b : Nat) (h : headerSafeByte b = true) :
    b ≠ 34 ∧ 32 ≤ b ∧ b ≠ 127 ∧ b ≠ 13 ∧ b ≠ 10 ∧
      b ∉ [92, 47, 58, 42, 63, 60, 62, 124] := by
  simp only [headerSafeByte, isAlnum, Bool.or_eq_true, Bool.and_eq_true, decide_eq_true_eq] at h
  simp only [List.mem_cons, List.mem_singleton, List.not_mem_nil, or_false, not_or]
  omega

/-- C17: for every input, each byte of the result of
`sanitizeContentDispositionFilename` is an ASCII letter or digit or one of
`- _ . ~ % +`; so the result has no double quote, no control character (no CR,
no LF) and none of `\ / : * ? < > |`. -/
theorem contentDisposition_filename_safe (filename : List Nat) :
    ∀ b ∈ sanitizeContentDispositionFilename filename,
      headerSafeByte b = true ∧ b ≠ 34 ∧ 32 ≤ b ∧ b ≠ 127 ∧ b ≠ 13 ∧ b ≠ 10 ∧
        b ∉ [92, 47, 58, 42, 63, 60, 62, 124] := by
  intro b hb
  have h := queryEscape_safe _ b hb
  exact ⟨h, headerSafeByte_spec b h⟩

/-- Witness for C17: the `%` written for the double quote of `a"b`. -/
theorem contentDisposition_filename_safe_witness :
    headerSafeByte 37 = true ∧ 37 ≠ 34 ∧ 32 ≤ 37 ∧ 37 ≠ 127 ∧ 37 ≠ 13 ∧ 37 ≠ 10 ∧
      37 ∉ [92, 47, 58, 42, 63, 60, 62, 124] :=
  contentDisposition_filename_safe [97, 34, 98] 37 (by decide)

/-- An example for C17: a name with a quote, a line feed, a slash and an `é`. -/
theorem contentDisposition_filename_example :
    sanitizeContentDispositionFilename [97, 34, 10, 47, 233, 32, 98] = ascii "a%27_%C3%A9+b" := by
  decide

/-! ## `ThumbnailAttribution` -/

/-- C18 fails on the code: for an image with author and licence, names and
URLs all plain, the anchors come out with two pairs of double quotes around
each URL, `href=""http://a""`, not one; the format string has `\"%q\"`, quotes
of its own around a verb that already quotes. -/
theorem ThumbnailAttribution_double_quotes :
    ThumbnailAttribution (fun _ => true) false
        (.ok ⟨"http://img", "A", "http://a", "CC", "http://l"⟩) =
      "© <a href=\"\"http://a\"\">A</a> / <a href=\"\"http://l\"\">CC</a>" ∧
    wellFormedAttribution ⟨"http://img", "A", "http://a", "CC", "http://l"⟩ =
      "© <a href=\"http://a\">A</a> / <a href=\"http://l\">CC</a>" ∧
    ThumbnailAttribution (fun _ => true) false
        (.ok ⟨"http://img", "A", "http://a", "CC", "http://l"⟩) ≠
      wellFormedAttribution ⟨"http://img", "A", "http://a", "CC", "http://l"⟩ := by
  decide

end Media
